import Mathlib

/-!
# tfe-to-teams: the notification relay of `function.go`

A shallow embedding of `function.go` (package `function`): the translator
`toTeams` and the HTTP handler `F`, together with the parts of the Go standard
library the handler computes with (`strings.TrimSpace`, `encoding/hex`,
`crypto/sha512`, `crypto/hmac`, `time.Time.IsZero` / `Format`).

Conventions
* a Go `string` is a Lean `String`; a Go `[]byte` is a `List Nat` of values below 256;
  `[]byte(s)` is `bytesOf s` (the UTF-8 encoding);
* what the handler does to the outside (log lines, the response writer, the outbound
  POST) is recorded as a list of `Effect`s, in program order;
* `log.Fatalln` is its log line followed by `Termination.fatal` (the process exits,
  nothing more is written);
* `encoding/json`, `net/url` and the network are taken as parameters (`World`).
-/

namespace TfeToTeams

/-! ## Byte strings -/

/-- UTF-8 encoding of one code point. -/
def utf8EncodeChar (c : Char) : List Nat :=
  let v := c.toNat
  if v < 0x80 then [v]
  else if v < 0x800 then [0xC0 + v / 0x40, 0x80 + v % 0x40]
  else if v < 0x10000 then [0xE0 + v / 0x1000, 0x80 + v / 0x40 % 0x40, 0x80 + v % 0x40]
  else [0xF0 + v / 0x40000, 0x80 + v / 0x1000 % 0x40, 0x80 + v / 0x40 % 0x40, 0x80 + v % 0x40]

/-- Go conversion `[]byte(s)`. -/
def bytesOf (s : String) : List Nat := s.data.flatMap utf8EncodeChar

/-! ## `unicode.IsSpace` and `strings.TrimSpace` -/

namespace unicode

/-- Go `unicode.IsSpace`: the Latin-1 cases are listed in the function itself, the rest
is the `White_Space` range table. -/
def IsSpace (r : Char) : Bool :=
  let v := r.toNat
  if v ≤ 0xFF then
    v = 0x09 || v = 0x0A || v = 0x0B || v = 0x0C || v = 0x0D || v = 0x20 || v = 0x85 || v = 0xA0
  else
    v = 0x1680 || (0x2000 ≤ v && v ≤ 0x200A) || v = 0x2028 || v = 0x2029 || v = 0x202F
      || v = 0x205F || v = 0x3000

end unicode

namespace strings

/-- Go `strings.TrimSpace`: all leading and trailing white space removed. -/
def TrimSpace (s : String) : String :=
  ⟨((s.data.dropWhile unicode.IsSpace).reverse.dropWhile unicode.IsSpace).reverse⟩

end strings

/-! ## `encoding/hex` -/

namespace hex

/-- The two errors of `encoding/hex`. -/
inductive Error where
  | InvalidByteError (b : Nat)
  | ErrLength
deriving DecidableEq, Repr

/-- Value of one hex digit (`reverseHexTable`): both cases of the letters are accepted. -/
def fromHexChar (b : Nat) : Option Nat :=
  if 0x30 ≤ b ∧ b ≤ 0x39 then some (b - 0x30)
  else if 0x61 ≤ b ∧ b ≤ 0x66 then some (b - 0x61 + 10)
  else if 0x41 ≤ b ∧ b ≤ 0x46 then some (b - 0x41 + 10)
  else none

/-- Go `hex.Decode`: pairs of digits, left to right; a trailing single byte is an
invalid-byte error when it is no digit and a length error otherwise. -/
def Decode : List Nat → Except Error (List Nat)
  | [] => .ok []
  | [p] =>
    match fromHexChar p with
    | none => .error (.InvalidByteError p)
    | some _ => .error .ErrLength
  | p :: q :: rest =>
    match fromHexChar p, fromHexChar q with
    | none, _ => .error (.InvalidByteError p)
    | some _, none => .error (.InvalidByteError q)
    | some a, some b =>
      match Decode rest with
      | .ok out => .ok ((a * 16 + b) :: out)
      | .error e => .error e

/-- Go `hex.DecodeString`. -/
def DecodeString (s : String) : Except Error (List Nat) := Decode (bytesOf s)

/-- The digit alphabet `0123456789abcdef` of `hex.EncodeToString`. -/
def hextable (n : Nat) : Char :=
  if n < 10 then Char.ofNat (0x30 + n) else Char.ofNat (0x61 + (n - 10))

/-- Go `hex.EncodeToString`: two lower-case digits per byte. -/
def EncodeToString (src : List Nat) : String :=
  ⟨src.flatMap fun b => [hextable (b / 16 % 16), hextable (b % 16)]⟩

end hex

/-! ## `crypto/sha512` (FIPS 180-4) and `crypto/hmac` (RFC 2104) -/

namespace sha512

/-- The round constants of SHA-512: the first 64 bits of the fractional parts of the
cube roots of the first eighty primes, in decimal. -/
def K : List Nat := [
  4794697086780616226, 8158064640168781261, 13096744586834688815, 16840607885511220156,
  4131703408338449720, 6480981068601479193, 10538285296894168987, 12329834152419229976,
  15566598209576043074, 1334009975649890238, 2608012711638119052, 6128411473006802146,
  8268148722764581231, 9286055187155687089, 11230858885718282805, 13951009754708518548,
  16472876342353939154, 17275323862435702243, 1135362057144423861, 2597628984639134821,
  3308224258029322869, 5365058923640841347, 6679025012923562964, 8573033837759648693,
  10970295158949994411, 12119686244451234320, 12683024718118986047, 13788192230050041572,
  14330467153632333762, 15395433587784984357, 489312712824947311, 1452737877330783856,
  2861767655752347644, 3322285676063803686, 5560940570517711597, 5996557281743188959,
  7280758554555802590, 8532644243296465576, 9350256976987008742, 10552545826968843579,
  11727347734174303076, 12113106623233404929, 14000437183269869457, 14369950271660146224,
  15101387698204529176, 15463397548674623760, 17586052441742319658, 1182934255886127544,
  1847814050463011016, 2177327727835720531, 2830643537854262169, 3796741975233480872,
  4115178125766777443, 5681478168544905931, 6601373596472566643, 7507060721942968483,
  8399075790359081724, 8693463985226723168, 9568029438360202098, 10144078919501101548,
  10430055236837252648, 11840083180663258601, 13761210420658862357, 14299343276471374635,
  14566680578165727644, 15097957966210449927, 16922976911328602910, 17689382322260857208,
  500013540394364858, 748580250866718886, 1242879168328830382, 1977374033974150939,
  2944078676154940804, 3659926193048069267, 4368137639120453308, 4836135668995329356,
  5532061633213252278, 6448918945643986474, 6902733635092675308, 7801388544844847127]

/-- The initial hash value of SHA-512: the first 64 bits of the fractional parts of the
square roots of the first eight primes, in decimal. -/
def H0 : List Nat := [
  7640891576956012808, 13503953896175478587, 4354685564936845355, 11912009170470909681,
  5840696475078001361, 11170449401992604703, 2270897969802886507, 6620516959819538809]

/-- Truncation to a 64-bit word. -/
def w64 (x : Nat) : Nat := x % 18446744073709551616

/-- Rotation of a 64-bit word to the right. -/
def rotr (n x : Nat) : Nat := w64 ((x >>> n) ||| (x <<< (64 - n)))

def bigSigma0 (x : Nat) : Nat := rotr 28 x ^^^ rotr 34 x ^^^ rotr 39 x

def bigSigma1 (x : Nat) : Nat := rotr 14 x ^^^ rotr 18 x ^^^ rotr 41 x

def smallSigma0 (x : Nat) : Nat := rotr 1 x ^^^ rotr 8 x ^^^ (x >>> 7)

def smallSigma1 (x : Nat) : Nat := rotr 19 x ^^^ rotr 61 x ^^^ (x >>> 6)

def ch (x y z : Nat) : Nat := (x &&& y) ^^^ ((x ^^^ 18446744073709551615) &&& z)

def maj (x y z : Nat) : Nat := (x &&& y) ^^^ (x &&& z) ^^^ (y &&& z)

/-- Message schedule: `ws` holds the words computed so far, newest first; each step
adds `W[t] = σ1(W[t-2]) + W[t-7] + σ0(W[t-15]) + W[t-16]`. -/
def schedule : Nat → List Nat → List Nat
  | 0, ws => ws
  | n + 1, ws =>
    schedule n
      (w64 (smallSigma1 (ws.getD 1 0) + ws.getD 6 0 + smallSigma0 (ws.getD 14 0) + ws.getD 15 0)
        :: ws)

/-- The eight working variables. -/
structure Vars where
  a : Nat
  b : Nat
  c : Nat
  d : Nat
  e : Nat
  f : Nat
  g : Nat
  h : Nat

/-- One round of the compression function. -/
def round (s : Vars) (k w : Nat) : Vars :=
  let t1 := s.h + bigSigma1 s.e + ch s.e s.f s.g + k + w
  let t2 := bigSigma0 s.a + maj s.a s.b s.c
  { a := w64 (t1 + t2), b := s.a, c := s.b, d := s.c,
    e := w64 (s.d + t1), f := s.e, g := s.f, h := s.g }

def rounds : List Nat → List Nat → Vars → Vars
  | k :: ks, w :: ws, s => rounds ks ws (round s k w)
  | _, _, s => s

/-- Big-endian value of a byte string. -/
def beWord (bs : List Nat) : Nat := bs.foldl (fun acc b => acc * 256 + b) 0

/-- The first `n` 64-bit words of a byte string. -/
def words : Nat → List Nat → List Nat
  | 0, _ => []
  | n + 1, bs => beWord (bs.take 8) :: words n (bs.drop 8)

/-- Compression of one 128-byte block into the hash state. -/
def compress (h : List Nat) (block : List Nat) : List Nat :=
  let w := (schedule 64 (words 16 block).reverse).reverse
  let s0 : Vars := ⟨h.getD 0 0, h.getD 1 0, h.getD 2 0, h.getD 3 0,
    h.getD 4 0, h.getD 5 0, h.getD 6 0, h.getD 7 0⟩
  let s := rounds K w s0
  [w64 (s0.a + s.a), w64 (s0.b + s.b), w64 (s0.c + s.c), w64 (s0.d + s.d),
   w64 (s0.e + s.e), w64 (s0.f + s.f), w64 (s0.g + s.g), w64 (s0.h + s.h)]

/-- The `n` low bytes of `x`, most significant first. -/
def beBytes : Nat → Nat → List Nat
  | 0, _ => []
  | n + 1, x => (x >>> (8 * n)) % 256 :: beBytes n x

/-- Padding: a `0x80` byte, zeros up to 112 modulo 128, the bit length on 16 bytes. -/
def pad (msg : List Nat) : List Nat :=
  msg ++ [0x80] ++ List.replicate ((239 - msg.length % 128) % 128) 0 ++ beBytes 16 (8 * msg.length)

def blocks : Nat → List Nat → List Nat → List Nat
  | 0, _, h => h
  | n + 1, bs, h => blocks n (bs.drop 128) (compress h (bs.take 128))

/-- Go `sha512.Sum512`: the 64-byte digest. -/
def Sum512 (msg : List Nat) : List Nat :=
  (blocks ((pad msg).length / 128) (pad msg) H0).flatMap (beBytes 8)

end sha512

namespace hmac

/-- The key block: the key padded with zeros to 128 bytes, xored with a constant. -/
def xorPad (c : Nat) (key : List Nat) : List Nat :=
  (key ++ List.replicate (128 - key.length) 0).map fun b => b ^^^ c

/-- The digest `mac.Sum(nil)` of `hmac.New(sha512.New, key)` after `mac.Write(data)`:
a key longer than the block size is hashed first. -/
def SumSHA512 (key data : List Nat) : List Nat :=
  let k := if key.length > 128 then sha512.Sum512 key else key
  sha512.Sum512 (xorPad 0x5c k ++ sha512.Sum512 (xorPad 0x36 k ++ data))

/-- Go `hmac.Equal`: a comparison in constant time, true exactly on equal byte strings. -/
def Equal (mac1 mac2 : List Nat) : Bool := decide (mac1 = mac2)

end hmac

/-! ## `time.Time` -/

/-- A `time.Time` value, as far as the handler observes it: the instant, as seconds and
nanoseconds since January 1, year 1, 00:00:00 UTC, and the offset east of UTC of the
location the time is presented in. -/
structure Time where
  sec : Int
  nsec : Nat
  offset : Int
deriving DecidableEq, Repr

namespace Time

/-- Go `Time.IsZero`: the instant is January 1, year 1, 00:00:00 UTC. -/
def IsZero (t : Time) : Bool := decide (t.sec = 0) && decide (t.nsec = 0)

/-- Seconds since January 1, year 1, 00:00:00 in the location of `t`. -/
def abs (t : Time) : Int := t.sec + t.offset

/-- Year, month and day of the day number `days` (day 0 is January 1, year 1) in the
proleptic Gregorian calendar, via the count of days since March 1, year 0. -/
def civil (days : Int) : Int × Int × Int :=
  let z := days + 306
  let era := z / 146097
  let doe := z % 146097
  let yoe := (doe - doe / 1460 + doe / 36524 - doe / 146096) / 365
  let doy := doe - (365 * yoe + yoe / 4 - yoe / 100)
  let mp := (5 * doy + 2) / 153
  let d := doy - (153 * mp + 2) / 5 + 1
  let m := if mp < 10 then mp + 3 else mp - 9
  (yoe + era * 400 + (if m ≤ 2 then 1 else 0), m, d)

def Year (t : Time) : Int := (civil (t.abs / 86400)).1

def Month (t : Time) : Int := (civil (t.abs / 86400)).2.1

def Day (t : Time) : Int := (civil (t.abs / 86400)).2.2

def Hour (t : Time) : Int := t.abs % 86400 / 3600

def Minute (t : Time) : Int := t.abs % 3600 / 60

def Second (t : Time) : Int := t.abs % 60

/-- The helper `appendInt` of `time.Format`: decimal, a minus sign for a negative
value, zero-padded to `width` digits. -/
def appendInt (x : Int) (width : Nat) : String :=
  let digits := Nat.toDigits 10 x.natAbs
  (if x < 0 then "-" else "") ++ String.mk (List.replicate (width - digits.length) (Char.ofNat 0x30) ++ digits)

/-- The call `t.Format("02/01/2006 15:04:05")`: zero-padded day, month, four-digit
year, 24-hour clock. -/
def Format (t : Time) : String :=
  appendInt t.Day 2 ++ "/" ++ appendInt t.Month 2 ++ "/" ++ appendInt t.Year 4 ++ " "
    ++ appendInt t.Hour 2 ++ ":" ++ appendInt t.Minute 2 ++ ":" ++ appendInt t.Second 2

end Time

/-! ## The data model of `function.go` -/

/-- The colour of each supported trigger (the Go map `triggerToColour`). -/
def triggerToColour : List (String × String) := [
  ("run:created", "#595959"),
  ("run:planning", "#13c2c2"),
  ("run:needs_attention", "#fadb14"),
  ("run:applying", "#1890ff"),
  ("run:completed", "#a0d911"),
  ("run:errored", "#f5222d")]

/-- One entry of `notifications`. -/
structure TFENotification where
  Message : String
  Trigger : String
  RunStatus : String
  RunUpdatedAt : Time
  RunUpdatedBy : String
deriving DecidableEq, Repr

/-- The inbound notification payload. -/
structure TFENotificationPayload where
  PayloadVersion : Int
  NotificationConfigurationID : String
  RunURL : String
  RunID : String
  RunMessage : String
  RunCreatedAt : Time
  RunCreatedBy : String
  WorkspaceID : String
  WorkspaceName : String
  OrganizationName : String
  Notifications : List TFENotification
deriving DecidableEq, Repr

/-- A name/value pair of a section. -/
structure Fact where
  Name : String
  Value : String
deriving DecidableEq, Repr

/-- The single section of a card. -/
structure Section where
  ActivityTitle : String
  ActivitySubtitle : String
  Facts : List Fact
deriving DecidableEq, Repr

/-- An action of a card; a target is a Go `map[string]string`, kept as its list of
key/value pairs. -/
structure PotentialAction where
  Type_ : String
  Name : String
  Targets : List (List (String × String))
deriving DecidableEq, Repr

/-- The outbound message card (the field `Type` of the source is `Type_` here). -/
structure MessageCard where
  Type_ : String
  Context : String
  Summary : String
  Title : String
  Text : String
  ThemeColor : String
  Sections : List Section
  PotentialActions : List PotentialAction
deriving DecidableEq, Repr

/-! ## Log lines, effects and outcomes -/

/-- The log calls of `function.go`, one constructor per call site, with the values
that are printed. -/
inductive LogLine where
  /-- Line 159, `TEAMS_WEBHOOK_URL` is not set in the environment. -/
  | webhookURLNotSet
  /-- A call `log.Fatalln(err)` with the error of a library call. -/
  | err (msg : String)
  /-- Line 167, `invalid method / content-type: %s / %s`. -/
  | invalidMethodContentType (method contentType : String)
  /-- Line 183, received notification with signature, but the token was not set. -/
  | tokenNotSet
  /-- Line 195, `log.Fatalln(err)` with the error of `hex.DecodeString`. -/
  | hexError (e : hex.Error)
  /-- Line 199, `signature does not match: %s (got) != %s (want)`, both in hex. -/
  | signatureMismatch (got want : String)
  /-- Line 209, `raw data received: %q`. -/
  | rawDataReceived (data : List Nat)
  /-- Line 214, `version not supported:` and the version. -/
  | versionNotSupported (version : Int)
  /-- Line 119, `unsupported trigger:` and the trigger. -/
  | unsupportedTrigger (trigger : String)
  /-- Line 234, `payload` and the serialized card. -/
  | payload (body : List Nat)
  /-- Line 235, `unexpected status code` and the code. -/
  | unexpectedStatusCode (code : Int)
deriving DecidableEq, Repr

/-- What the handler does to the outside, in program order. -/
inductive Effect where
  /-- A line written to the log. -/
  | log (l : LogLine)
  /-- The request body is read, `ioutil.ReadAll(r.Body)`. -/
  | readBody
  /-- The bytes are decoded, `json.Unmarshal(data, &payload)`. -/
  | unmarshal (data : List Nat)
  /-- The translator is called, `toTeams(payload)`. -/
  | callToTeams (payload : TFENotificationPayload)
  /-- The outbound `http.Post(url, contentType, body)`. -/
  | post (url contentType : String) (body : List Nat)
  /-- The call `w.Header().Set(key, value)`. -/
  | setHeader (key value : String)
  /-- The call `w.WriteHeader(status)`. -/
  | writeHeader (status : Nat)
  /-- Bytes written to the response body. -/
  | write (body : List Nat)
deriving DecidableEq, Repr

/-- How a run of the handler ends: it returns, `log.Fatalln` exits the process, or an
index out of range panics. -/
inductive Termination where
  | returned
  | fatal
  | panic
deriving DecidableEq, Repr

/-- A run of the handler: its effects and how it ended. -/
structure Outcome where
  trace : List Effect
  term : Termination
deriving DecidableEq, Repr

namespace Outcome

/-- The status of the response, when one was written. -/
def status (o : Outcome) : Option Nat :=
  o.trace.findSome? fun e => match e with
    | .writeHeader s => some s
    | _ => none

/-- The bytes of the response body. -/
def body (o : Outcome) : List Nat :=
  o.trace.flatMap fun e => match e with
    | .write b => b
    | _ => []

/-- No response was written at all: no status line and no body bytes. -/
def noResponse (o : Outcome) : Prop :=
  ∀ e ∈ o.trace, (∀ s, e ≠ .writeHeader s) ∧ (∀ b, e ≠ .write b) ∧ (∀ k v, e ≠ .setHeader k v)

end Outcome

/-! ## The translator -/

/-- The function `toTeams` (lines 80-154): the card and the lines it logs, or `none`
when `payload.Notifications[0]` is out of range and the function panics. -/
def toTeams (payload : TFENotificationPayload) : Option (MessageCard × List LogLine) :=
  match payload.Notifications with
  | [] => none
  | notification :: _ =>
    let title :=
      if payload.WorkspaceName ≠ "" then
        notification.Message ++ " in " ++ payload.WorkspaceName ++ "."
      else notification.Message
    let facts : List Fact := []
    let facts :=
      if payload.OrganizationName ≠ "" then
        facts ++ [{ Name := "Organisation", Value := payload.OrganizationName }]
      else facts
    let facts :=
      if payload.RunID ≠ "" then facts ++ [{ Name := "Run ID", Value := payload.RunID }]
      else facts
    let facts :=
      if payload.RunCreatedBy ≠ "" then
        facts ++ [{ Name := "Run Created By", Value := payload.RunCreatedBy }]
      else facts
    let facts :=
      if !payload.RunCreatedAt.IsZero then
        facts ++ [{ Name := "Run Created At", Value := payload.RunCreatedAt.Format }]
      else facts
    let colour := (triggerToColour.lookup notification.Trigger).getD ""
    let section_ : Section := { ActivityTitle := "", ActivitySubtitle := "", Facts := facts }
    let section_ :=
      if notification.RunUpdatedBy ≠ "" then
        { section_ with ActivityTitle := notification.RunUpdatedBy }
      else section_
    let section_ :=
      if !notification.RunUpdatedAt.IsZero then
        { section_ with ActivitySubtitle := notification.RunUpdatedAt.Format }
      else section_
    some
      ({ Type_ := "MessageCard"
         Context := "https://schema.org/extensions"
         Summary := title
         Title := title
         Text := payload.RunMessage
         ThemeColor := colour
         Sections := [section_]
         PotentialActions := [
           { Type_ := "OpenUri"
             Name := "View Run"
             Targets := [[("os", "default"), ("uri", payload.RunURL)]] }] },
       [.unsupportedTrigger notification.Trigger])

/-! ## The handler -/

/-- An inbound request: the method, `r.Header.Get`, and what reading the body gives. -/
structure Request where
  Method : String
  Header : String → String
  Body : Except String (List Nat)

/-- What the handler takes from its surroundings: the process environment
(`os.Getenv`, the empty string for an unset variable), `url.Parse` (only its error is
used), `json.Unmarshal` into a zero payload, `json.Marshal` of a card (it cannot fail
on this type), and the outbound `http.Post` with the status code of its response. -/
structure World where
  Getenv : String → String
  urlParse : String → Except String Unit
  jsonUnmarshal : List Nat → Except String TFENotificationPayload
  jsonMarshal : MessageCard → List Nat
  httpPost : String → String → List Nat → Except String Int

/-- The 400 response of the three validation failures. -/
def invalidRequest : List Effect :=
  [.writeHeader 400, .write (bytesOf "invalid request")]

namespace F

/-- Lines 178-204 of `F`, the check of the signature: `some o` when the handler ends
inside the block with the effects and termination `o`, `none` when control reaches
line 206. `mac.Write` of a hash never returns an error, so lines 188-190 have no
branch here. -/
def authenticate (tfeWebhookToken header : String) (data : List Nat) : Option Outcome :=
  let tfeNotificationSignature := strings.TrimSpace header
  if tfeNotificationSignature ≠ "" then
    if tfeWebhookToken = "" then
      some ⟨[.log .tokenNotSet], .fatal⟩
    else
    let expectedMAC := hmac.SumSHA512 (bytesOf (strings.TrimSpace tfeWebhookToken)) data
    match hex.DecodeString tfeNotificationSignature with
    | .error e => some ⟨[.log (.hexError e)], .fatal⟩
    | .ok tfeNotificationHexSignature =>
    if !hmac.Equal tfeNotificationHexSignature expectedMAC then
      some ⟨.log (.signatureMismatch (hex.EncodeToString tfeNotificationHexSignature)
          (hex.EncodeToString expectedMAC)) :: invalidRequest, .returned⟩
    else none
  else none

/-- Lines 206-243 of `F`: decode the body, check the version, translate, post the card
and answer. `json.Marshal` cannot fail on a `MessageCard`, so lines 223-225 have no
branch here; the response writer is the in-memory one, whose writes succeed, and
`json.NewEncoder(w).Encode` writes the marshalled card and a newline. -/
def deliver (w : World) (teamsWebhookURL : String) (data : List Nat) : Outcome :=
  match w.jsonUnmarshal data with
  | .error e => ⟨[.unmarshal data, .log (.rawDataReceived data), .log (.err e)], .fatal⟩
  | .ok payload =>
  if payload.PayloadVersion ≠ 1 then
    ⟨.unmarshal data :: .log (.versionNotSupported payload.PayloadVersion) :: invalidRequest,
      .returned⟩
  else
  match toTeams payload with
  | none => ⟨[.unmarshal data, .callToTeams payload], .panic⟩
  | some (teamsWebhook, logged) =>
  let teamsPayload := w.jsonMarshal teamsWebhook
  let pre : List Effect :=
    [.unmarshal data, .callToTeams payload] ++ logged.map Effect.log
      ++ [.post teamsWebhookURL "application/json" teamsPayload]
  match w.httpPost teamsWebhookURL "application/json" teamsPayload with
  | .error e => ⟨pre ++ [.log (.err e)], .fatal⟩
  | .ok statusCode =>
  if statusCode < 200 ∨ statusCode ≥ 300 then
    ⟨pre ++ [.log (.payload teamsPayload), .log (.unexpectedStatusCode statusCode)], .fatal⟩
  else
    ⟨pre ++ [.setHeader "Content-Type" "application/json", .writeHeader 200,
        .write (teamsPayload ++ [0x0A])], .returned⟩

end F

/-- The handler `F` (lines 156-243): the configuration, the request gate, the body,
then `F.authenticate` (lines 178-204) and `F.deliver` (lines 206-243). -/
def F (w : World) (r : Request) : Outcome :=
  let teamsWebhookURL := w.Getenv "TEAMS_WEBHOOK_URL"
  if teamsWebhookURL = "" then
    ⟨[.log .webhookURLNotSet], .fatal⟩
  else
  match w.urlParse teamsWebhookURL with
  | .error e => ⟨[.log (.err e)], .fatal⟩
  | .ok _ =>
  let contentType := r.Header "Content-Type"
  if r.Method ≠ "POST" ∨ contentType ≠ "application/json" then
    ⟨.log (.invalidMethodContentType r.Method contentType) :: invalidRequest, .returned⟩
  else
  match r.Body with
  | .error e => ⟨[.readBody, .log (.err e)], .fatal⟩
  | .ok data =>
  let tfeWebhookToken := w.Getenv "TFE_WEBHOOK_TOKEN"
  match F.authenticate tfeWebhookToken (r.Header "X-TFE-Notification-Signature") data with
  | some stop => ⟨.readBody :: stop.trace, stop.term⟩
  | none =>
  let rest := F.deliver w teamsWebhookURL data
  ⟨.readBody :: rest.trace, rest.term⟩

/-! ## Sample inputs

Concrete values on which the statements below are exercised. -/

/-- A request from its method, header list and body. -/
def Request.ofHeaders (method : String) (headers : List (String × String))
    (body : List Nat) : Request :=
  { Method := method, Header := fun k => (headers.lookup k).getD "", Body := .ok body }

/-- The request `r` with the header `key` set to `value`. -/
def Request.withHeader (r : Request) (key value : String) : Request :=
  { r with Header := fun k => if k = key then value else r.Header k }

/-- The world `w` with the environment variable `key` set to `value`. -/
def World.setenv (w : World) (key value : String) : World :=
  { w with Getenv := fun k => if k = key then value else w.Getenv k }

/-- A full notification document: every optional field set, trigger `run:completed`. -/
def sampleDocument : String :=
  "\x7b\"payload_version\":1,\"notification_configuration_id\":\"nc-1\","
    ++ "\"run_url\":\"https://app.terraform.io/app/acme/prod/runs/run-1\","
    ++ "\"run_id\":\"run-1\",\"run_message\":\"Queued manually\","
    ++ "\"run_created_at\":\"2019-01-25T18:34:00Z\",\"run_created_by\":\"alice\","
    ++ "\"workspace_id\":\"ws-1\",\"workspace_name\":\"prod\",\"organization_name\":\"acme\","
    ++ "\"notifications\":[\x7b\"message\":\"Run done\",\"trigger\":\"run:completed\","
    ++ "\"run_status\":\"applied\",\"run_updated_at\":\"2019-01-25T18:37:04Z\","
    ++ "\"run_updated_by\":\"bob\"\x7d]\x7d"

/-- The payload `json.Unmarshal` decodes `sampleDocument` to; the two times are
2019-01-25 18:34:00 UTC and 18:37:04 UTC. -/
def samplePayload : TFENotificationPayload :=
  { PayloadVersion := 1
    NotificationConfigurationID := "nc-1"
    RunURL := "https://app.terraform.io/app/acme/prod/runs/run-1"
    RunID := "run-1"
    RunMessage := "Queued manually"
    RunCreatedAt := ⟨63684038040, 0, 0⟩
    RunCreatedBy := "alice"
    WorkspaceID := "ws-1"
    WorkspaceName := "prod"
    OrganizationName := "acme"
    Notifications := [
      { Message := "Run done"
        Trigger := "run:completed"
        RunStatus := "applied"
        RunUpdatedAt := ⟨63684038224, 0, 0⟩
        RunUpdatedBy := "bob" }] }

/-- The payload `json.Unmarshal` decodes the document `{}` to: every field zero. -/
def zeroPayload : TFENotificationPayload :=
  { PayloadVersion := 0
    NotificationConfigurationID := ""
    RunURL := ""
    RunID := ""
    RunMessage := ""
    RunCreatedAt := ⟨0, 0, 0⟩
    RunCreatedBy := ""
    WorkspaceID := ""
    WorkspaceName := ""
    OrganizationName := ""
    Notifications := [] }

/-- A JSON string literal as `encoding/json` writes it: quotes, the backslash and
control characters escaped, and `<`, `>`, `&`, U+2028, U+2029 written as `\u` escapes. -/
def sampleQuote (s : String) : String :=
  let hex4 (v : Nat) : String :=
    ⟨[hex.hextable (v / 4096 % 16), hex.hextable (v / 256 % 16),
      hex.hextable (v / 16 % 16), hex.hextable (v % 16)]⟩
  let esc (c : Char) : String :=
    if c.toNat = 0x22 then "\\\""
    else if c.toNat = 0x5C then "\\\\"
    else if c.toNat = 0x0A then "\\n"
    else if c.toNat = 0x0D then "\\r"
    else if c.toNat = 0x09 then "\\t"
    else if c.toNat < 0x20 ∨ c.toNat = 0x3C ∨ c.toNat = 0x3E ∨ c.toNat = 0x26
        ∨ c.toNat = 0x2028 ∨ c.toNat = 0x2029 then
      "\\u" ++ hex4 c.toNat
    else ⟨[c]⟩
  "\"" ++ String.join (s.data.map esc) ++ "\""

/-- A JSON object from its members, the empty ones (`omitempty`) left out. -/
def sampleObject (members : List (Option String)) : String :=
  "\x7b" ++ String.intercalate "," (members.filterMap id) ++ "\x7d"

/-- The JSON text of a card: the fields in the order of the struct, the `omitempty`
ones left out when empty, the keys of a target in sorted order. -/
def sampleMarshal (card : MessageCard) : String :=
  let str (key value : String) : Option String := some (sampleQuote key ++ ":" ++ sampleQuote value)
  let opt (key value : String) : Option String := if value = "" then none else str key value
  let arr (key : String) (items : List String) : Option String :=
    if items = [] then none
    else some (sampleQuote key ++ ":[" ++ String.intercalate "," items ++ "]")
  let fact (f : Fact) : String := sampleObject [str "name" f.Name, str "value" f.Value]
  let section_ (s : Section) : String :=
    sampleObject [opt "activityTitle" s.ActivityTitle, opt "activitySubtitle" s.ActivitySubtitle,
      arr "facts" (s.Facts.map fact)]
  let target (t : List (String × String)) : String :=
    sampleObject (t.map fun kv => str kv.1 kv.2)
  let action (a : PotentialAction) : String :=
    sampleObject [str "@type" a.Type_, str "name" a.Name, arr "targets" (a.Targets.map target)]
  sampleObject [str "@type" card.Type_, str "@context" card.Context,
    opt "summary" card.Summary, opt "title" card.Title, opt "text" card.Text,
    opt "themeColor" card.ThemeColor, arr "sections" (card.Sections.map section_),
    arr "potentialAction" (card.PotentialActions.map action)]

/-- A world for the sample inputs: the webhook URL is set and parses, the secret is
`token`, `json.Unmarshal` is tabulated on `sampleDocument` and on `{}` (any other body
is reported as a syntax error), cards are serialized by `sampleMarshal`, and the webhook
answers `status`. -/
def sampleWorld (token : String) (status : Int) : World :=
  { Getenv := fun k =>
      if k = "TEAMS_WEBHOOK_URL" then "https://example.webhook.office.com/hook"
      else if k = "TFE_WEBHOOK_TOKEN" then token
      else ""
    urlParse := fun _ => .ok ()
    jsonUnmarshal := fun data =>
      if data = bytesOf sampleDocument then .ok samplePayload
      else if data = bytesOf "\x7b\x7d" then .ok zeroPayload
      else .error "invalid character"
    jsonMarshal := fun card => bytesOf (sampleMarshal card)
    httpPost := fun _ _ _ => .ok status }

/-- A POST of `sampleDocument` as `application/json`, with the given value of the
signature header. -/
def sampleRequest (signature : String) : Request :=
  Request.ofHeaders "POST"
    [("Content-Type", "application/json"), ("X-TFE-Notification-Signature", signature)]
    (bytesOf sampleDocument)

/-- The hex digits of HMAC-SHA512 of `sampleDocument` under the key `s3cret`. -/
def sampleSignature : String :=
  "9e550d7d975cd18c2bda58bcd52cf3e4bbe43484e1590b9bd8cbcd50938386c3"
    ++ "7b255193659320aec6b258d29af28d91a98f629ae4983b9329b7ef52fc6d7bb6"

/-- A world for the configuration check: `TEAMS_WEBHOOK_URL` is `webhookURL` and
`url.Parse` is tabulated on two values. On `%zz` it reports the error
`invalid URL escape "%zz"`; on `not a url` it reports none: the value has no scheme, no
leading slash and no colon in its first segment, so it is parsed as the relative path
`not a url`. Any other value is taken as parsed, and the rest is `sampleWorld`. -/
def urlWorld (webhookURL : String) : World :=
  { sampleWorld "s3cret" 200 with
    Getenv := fun k =>
      if k = "TEAMS_WEBHOOK_URL" then webhookURL else (sampleWorld "s3cret" 200).Getenv k
    urlParse := fun rawURL =>
      if rawURL = "%zz" then .error "parse \"%zz\": invalid URL escape \"%zz\"" else .ok () }

/-! ## The calendar, as a specification

The proleptic Gregorian calendar by its rules, written without reference to
`Time.civil`: the fields `Time.Year`, `Time.Month`, `Time.Day` are compared with it. -/

namespace Calendar

/-- A leap year: divisible by 4, and not by 100 unless by 400. -/
def isLeap (y : Int) : Bool := decide (y % 4 = 0 ∧ (y % 100 ≠ 0 ∨ y % 400 = 0))

/-- The number of days of month `m` (1 to 12) of year `y`. -/
def daysIn (y m : Int) : Int :=
  if m = 2 then (if isLeap y then 29 else 28)
  else if m = 4 ∨ m = 6 ∨ m = 9 ∨ m = 11 then 30
  else 31

/-- The number of days of year `y` before its month `m`: the sum of the months 1 to
`m - 1`. -/
def daysBeforeMonth (y m : Int) : Int :=
  ((List.range (m.toNat - 1)).map fun i => daysIn y (Int.ofNat i + 1)).sum

/-- The number of days from January 1 of year 1 to January 1 of year `y`: 365 for each
year, and one more for each leap year. -/
def daysBeforeYear (y : Int) : Int :=
  365 * (y - 1) + (y - 1) / 4 - (y - 1) / 100 + (y - 1) / 400

/-- The day number of the date `y`-`m`-`d`, counted from 0 at January 1 of year 1. -/
def dayNumber (y m d : Int) : Int := daysBeforeYear y + daysBeforeMonth y m + (d - 1)

end Calendar

/-! ## Preconditions of the handler -/

/-- The configuration passes lines 157-164: `TEAMS_WEBHOOK_URL` is set and parses. -/
def World.configured (w : World) : Prop :=
  w.Getenv "TEAMS_WEBHOOK_URL" ≠ "" ∧ w.urlParse (w.Getenv "TEAMS_WEBHOOK_URL") = .ok ()

/-- The request passes the gate of line 166, a POST with content type
`application/json`, and reading its body gives `data`. -/
def Request.postJSON (r : Request) (data : List Nat) : Prop :=
  r.Method = "POST" ∧ r.Header "Content-Type" = "application/json" ∧ r.Body = .ok data

/-! ## The translator: facts, title, colour -/

/-- The card of a payload with a first notification `n`, field by field. -/
theorem toTeams_cons (p : TFENotificationPayload) (n : TFENotification)
    (rest : List TFENotification) (h : p.Notifications = n :: rest) :
    toTeams p = some
      ({ Type_ := "MessageCard"
         Context := "https://schema.org/extensions"
         Summary := if p.WorkspaceName = "" then n.Message
           else n.Message ++ " in " ++ p.WorkspaceName ++ "."
         Title := if p.WorkspaceName = "" then n.Message
           else n.Message ++ " in " ++ p.WorkspaceName ++ "."
         Text := p.RunMessage
         ThemeColor := (triggerToColour.lookup n.Trigger).getD ""
         Sections := [
           { ActivityTitle := n.RunUpdatedBy
             ActivitySubtitle := if n.RunUpdatedAt.IsZero then "" else n.RunUpdatedAt.Format
             Facts :=
               (if p.OrganizationName = "" then [] else [⟨"Organisation", p.OrganizationName⟩])
               ++ (if p.RunID = "" then [] else [⟨"Run ID", p.RunID⟩])
               ++ (if p.RunCreatedBy = "" then [] else [⟨"Run Created By", p.RunCreatedBy⟩])
               ++ (if p.RunCreatedAt.IsZero then []
                   else [⟨"Run Created At", p.RunCreatedAt.Format⟩]) }]
         PotentialActions := [
           { Type_ := "OpenUri"
             Name := "View Run"
             Targets := [[("os", "default"), ("uri", p.RunURL)]] }] },
       [.unsupportedTrigger n.Trigger]) := by
  rw [toTeams, h]
  by_cases h1 : p.OrganizationName = "" <;> by_cases h2 : p.RunID = "" <;>
    by_cases h3 : p.RunCreatedBy = "" <;> cases h4 : p.RunCreatedAt.IsZero <;>
    by_cases h5 : n.RunUpdatedBy = "" <;> cases h6 : n.RunUpdatedAt.IsZero <;>
    by_cases h7 : p.WorkspaceName = "" <;>
    simp [h1, h2, h3, h4, h5, h6, h7]

/-- C1. For a payload with at least one notification `toTeams` returns a card with a
single section whose facts are the entries of Organisation, Run ID, Run Created By,
Run Created At (formatted) whose source field is non-empty, respectively non-zero, kept
in that order; with only the organisation and the creator set these are the two facts
Organisation and Run Created By, and with all four fields empty or zero there is no
fact. -/
theorem toTeams_facts (p : TFENotificationPayload) (n : TFENotification)
    (rest : List TFENotification) (h : p.Notifications = n :: rest) :
    ∃ card logged section_, toTeams p = some (card, logged) ∧ card.Sections = [section_] ∧
      section_.Facts =
        (([("Organisation", p.OrganizationName, decide (p.OrganizationName ≠ "")),
           ("Run ID", p.RunID, decide (p.RunID ≠ "")),
           ("Run Created By", p.RunCreatedBy, decide (p.RunCreatedBy ≠ "")),
           ("Run Created At", p.RunCreatedAt.Format, !p.RunCreatedAt.IsZero)]
            : List (String × String × Bool)).filter fun e => e.2.2).map
          (fun e => Fact.mk e.1 e.2.1) ∧
      (p.OrganizationName ≠ "" → p.RunID = "" → p.RunCreatedBy ≠ "" →
        p.RunCreatedAt.IsZero = true →
        section_.Facts = [⟨"Organisation", p.OrganizationName⟩,
          ⟨"Run Created By", p.RunCreatedBy⟩]) ∧
      (p.OrganizationName = "" → p.RunID = "" → p.RunCreatedBy = "" →
        p.RunCreatedAt.IsZero = true → section_.Facts = []) := by
  refine ⟨_, _, _, toTeams_cons p n rest h, rfl, ?_, ?_, ?_⟩
  · by_cases h1 : p.OrganizationName = "" <;> by_cases h2 : p.RunID = "" <;>
      by_cases h3 : p.RunCreatedBy = "" <;> cases h4 : p.RunCreatedAt.IsZero <;>
      simp [h1, h2, h3, h4, List.filter]
  · intro h1 h2 h3 h4
    simp [h1, h2, h3, h4]
  · intro h1 h2 h3 h4
    simp [h1, h2, h3, h4]

/-- C1, on a sample: a payload with only the organisation and the creator set. -/
theorem toTeams_facts_witness :
    ∃ card logged section_,
      toTeams { zeroPayload with
          OrganizationName := "acme", RunCreatedBy := "alice",
          Notifications := [⟨"Run done", "run:completed", "", ⟨0, 0, 0⟩, ""⟩] }
        = some (card, logged) ∧ card.Sections = [section_] ∧
      section_.Facts = [⟨"Organisation", "acme"⟩, ⟨"Run Created By", "alice"⟩] := by
  obtain ⟨card, logged, s, h1, h2, _, h4, _⟩ :=
    toTeams_facts { zeroPayload with
        OrganizationName := "acme", RunCreatedBy := "alice",
        Notifications := [⟨"Run done", "run:completed", "", ⟨0, 0, 0⟩, ""⟩] }
      ⟨"Run done", "run:completed", "", ⟨0, 0, 0⟩, ""⟩ [] rfl
  exact ⟨card, logged, s, h1, h2, h4 (by decide) (by decide) (by decide) (by decide)⟩

/-- C2. For a payload with at least one notification, the title and the summary of the
card are both the message of the first notification followed by ` in <workspace>.` when
the workspace name is non-empty, and the message alone when it is empty; so `Run done`
with workspace `prod` gives `Run done in prod.` and with no workspace `Run done`. -/
theorem toTeams_title (p : TFENotificationPayload) (n : TFENotification)
    (rest : List TFENotification) (h : p.Notifications = n :: rest) :
    ∃ card logged, toTeams p = some (card, logged) ∧ card.Summary = card.Title ∧
      (p.WorkspaceName ≠ "" → card.Title = n.Message ++ " in " ++ p.WorkspaceName ++ ".") ∧
      (p.WorkspaceName = "" → card.Title = n.Message) ∧
      (n.Message = "Run done" → p.WorkspaceName = "prod" → card.Title = "Run done in prod.") ∧
      (n.Message = "Run done" → p.WorkspaceName = "" → card.Title = "Run done") := by
  refine ⟨_, _, toTeams_cons p n rest h, rfl, ?_, ?_, ?_, ?_⟩
  · intro hw
    simp [hw]
  · intro hw
    simp [hw]
  · intro hm hw
    simp only [hm, hw]
    decide
  · intro hm hw
    simp [hm, hw]

/-- C2, on the sample payload: message `Run done`, workspace `prod`. -/
theorem toTeams_title_witness :
    ∃ card logged, toTeams samplePayload = some (card, logged) ∧
      card.Summary = "Run done in prod." ∧ card.Title = "Run done in prod." := by
  obtain ⟨card, logged, h1, h2, _, _, h5, _⟩ :=
    toTeams_title samplePayload ⟨"Run done", "run:completed", "applied", ⟨63684038224, 0, 0⟩, "bob"⟩
      [] rfl
  exact ⟨card, logged, h1, h2.trans (h5 rfl rfl), h5 rfl rfl⟩

/-- C3. For a payload with at least one notification `toTeams` returns a card, and its
theme colour is the entry of the table for the trigger of the first notification:
the six colours on the six keys, and the empty string on every other trigger. -/
theorem toTeams_themeColor (p : TFENotificationPayload) (n : TFENotification)
    (rest : List TFENotification) (h : p.Notifications = n :: rest) :
    ∃ card logged, toTeams p = some (card, logged) ∧
      (n.Trigger = "run:created" → card.ThemeColor = "#595959") ∧
      (n.Trigger = "run:planning" → card.ThemeColor = "#13c2c2") ∧
      (n.Trigger = "run:needs_attention" → card.ThemeColor = "#fadb14") ∧
      (n.Trigger = "run:applying" → card.ThemeColor = "#1890ff") ∧
      (n.Trigger = "run:completed" → card.ThemeColor = "#a0d911") ∧
      (n.Trigger = "run:errored" → card.ThemeColor = "#f5222d") ∧
      (n.Trigger ∉ ["run:created", "run:planning", "run:needs_attention", "run:applying",
          "run:completed", "run:errored"] → card.ThemeColor = "") ∧
      (n.Trigger = "unknown:x" → card.ThemeColor = "") := by
  refine ⟨_, _, toTeams_cons p n rest h, ?_, ?_, ?_, ?_, ?_, ?_, ?_, ?_⟩
  · intro ht
    simp only [ht]
    decide
  · intro ht
    simp only [ht]
    decide
  · intro ht
    simp only [ht]
    decide
  · intro ht
    simp only [ht]
    decide
  · intro ht
    simp only [ht]
    decide
  · intro ht
    simp only [ht]
    decide
  · intro ht
    simp only [List.mem_cons, List.mem_singleton, List.not_mem_nil, not_or, or_false] at ht
    obtain ⟨h1, h2, h3, h4, h5, h6⟩ := ht
    simp [triggerToColour, List.lookup, beq_eq_false_iff_ne.mpr h1, beq_eq_false_iff_ne.mpr h2,
      beq_eq_false_iff_ne.mpr h3, beq_eq_false_iff_ne.mpr h4, beq_eq_false_iff_ne.mpr h5,
      beq_eq_false_iff_ne.mpr h6]
  · intro ht
    simp only [ht]
    decide

/-- C3, on a sample: the trigger `unknown:x` is in no entry of the table, and the card
is returned with an empty colour. -/
theorem toTeams_themeColor_witness :
    ∃ card logged,
      toTeams { samplePayload with
          Notifications := [⟨"Run done", "unknown:x", "", ⟨0, 0, 0⟩, ""⟩] }
        = some (card, logged) ∧ card.ThemeColor = "" := by
  obtain ⟨card, logged, h1, _, _, _, _, _, _, h8, _⟩ :=
    toTeams_themeColor { samplePayload with
        Notifications := [⟨"Run done", "unknown:x", "", ⟨0, 0, 0⟩, ""⟩] }
      ⟨"Run done", "unknown:x", "", ⟨0, 0, 0⟩, ""⟩ [] rfl
  exact ⟨card, logged, h1, h8 (by decide)⟩

/-! ## Library facts: hex digits, trimming, digest bytes -/

theorem dropWhile_of_all_false {α : Type} (p : α → Bool) :
    ∀ l : List α, (∀ c ∈ l, p c = false) → l.dropWhile p = l
  | [], _ => rfl
  | a :: l, h => by simp [List.dropWhile, h a (List.mem_cons_self a l)]

/-- Trimming leaves a string without white space unchanged. -/
theorem TrimSpace_of_no_space (s : String) (h : ∀ c ∈ s.data, unicode.IsSpace c = false) :
    strings.TrimSpace s = s := by
  unfold strings.TrimSpace
  rw [dropWhile_of_all_false _ _ h,
    dropWhile_of_all_false _ _ (fun c hc => h c (List.mem_reverse.mp hc)), List.reverse_reverse]

/-- A hex digit is no white space, is one byte of UTF-8, and decodes to its value. -/
theorem hextable_spec (n : Nat) (h : n < 16) :
    unicode.IsSpace (hex.hextable n) = false ∧
      ∃ c, utf8EncodeChar (hex.hextable n) = [c] ∧ hex.fromHexChar c = some n := by
  interval_cases n <;> exact ⟨by decide, _, rfl, by decide⟩

theorem EncodeToString_cons (b : Nat) (bs : List Nat) :
    (hex.EncodeToString (b :: bs)).data =
      hex.hextable (b / 16 % 16) :: hex.hextable (b % 16) :: (hex.EncodeToString bs).data := by
  simp [hex.EncodeToString]

theorem EncodeToString_no_space (bs : List Nat) :
    ∀ c ∈ (hex.EncodeToString bs).data, unicode.IsSpace c = false := by
  induction bs with
  | nil => intro c hc; simp [hex.EncodeToString] at hc
  | cons b bs ih =>
    intro c hc
    rw [EncodeToString_cons] at hc
    rcases List.mem_cons.mp hc with rfl | hc
    · exact (hextable_spec _ (Nat.mod_lt _ (by decide))).1
    rcases List.mem_cons.mp hc with rfl | hc
    · exact (hextable_spec _ (Nat.mod_lt _ (by decide))).1
    · exact ih c hc

/-- Decoding the hex digits of a byte string gives the byte string back. -/
theorem DecodeString_EncodeToString (bs : List Nat) (h : ∀ b ∈ bs, b < 256) :
    hex.DecodeString (hex.EncodeToString bs) = .ok bs := by
  induction bs with
  | nil => rfl
  | cons b bs ih =>
    have hb : b < 256 := h b (List.mem_cons_self b bs)
    obtain ⟨c1, e1, d1⟩ := (hextable_spec (b / 16 % 16) (Nat.mod_lt _ (by decide))).2
    obtain ⟨c2, e2, d2⟩ := (hextable_spec (b % 16) (Nat.mod_lt _ (by decide))).2
    have ih2 := ih (fun x hx => h x (List.mem_cons_of_mem b hx))
    unfold hex.DecodeString bytesOf at ih2 ⊢
    rw [EncodeToString_cons]
    simp only [List.flatMap_cons, e1, e2, List.singleton_append, hex.Decode, d1, d2, ih2]
    have : b / 16 % 16 * 16 + b % 16 = b := by omega
    rw [this]

theorem beBytes_lt (n x : Nat) : ∀ b ∈ sha512.beBytes n x, b < 256 := by
  induction n with
  | zero => intro b hb; simp [sha512.beBytes] at hb
  | succ n ih =>
    intro b hb
    rcases List.mem_cons.mp hb with rfl | hb
    · exact Nat.mod_lt _ (by decide)
    · exact ih b hb

/-- Every element of a digest is a byte. -/
theorem SumSHA512_lt (key data : List Nat) : ∀ b ∈ hmac.SumSHA512 key data, b < 256 := by
  intro b hb
  unfold hmac.SumSHA512 sha512.Sum512 at hb
  obtain ⟨x, _, hx⟩ := List.mem_flatMap.mp hb
  exact beBytes_lt 8 x b hx

/-- The digest of `abc`, the one-block example of FIPS 180-4. -/
theorem Sum512_abc :
    hex.EncodeToString (sha512.Sum512 (bytesOf "abc")) =
      "ddaf35a193617abacc417349ae20413112e6fa4e89a97ea20a9eeee64b55d39a"
        ++ "2192992a274fc1a836ba3c23a3feebbd454d4423643ce80e2a9ac94fa54ca49f" := by
  decide!

/-- Test case 2 of RFC 4231 for HMAC-SHA-512. -/
theorem SumSHA512_rfc4231 :
    hex.EncodeToString (hmac.SumSHA512 (bytesOf "Jefe") (bytesOf "what do ya want for nothing?")) =
      "164b7a7bfcf819e2e395fbe73b56e0a387bd64222e831fd610270cd7ea250554"
        ++ "9758bf75c05a994a6d034f65f8f0e6fdcaeab1a34d4a6b4b636e070a38bce737" := by
  decide!

/-- The layout on the two times of the sample payload, on the first of them seen from
UTC+05:30, and on the zero time. -/
theorem Format_samples :
    (Time.mk 63684038040 0 0).Format = "25/01/2019 18:34:00" ∧
      (Time.mk 63684038224 0 0).Format = "25/01/2019 18:37:04" ∧
      (Time.mk 63684038040 0 19800).Format = "26/01/2019 00:04:00" ∧
      (Time.mk 0 0 0).Format = "01/01/0001 00:00:00" := by
  decide!

/-- Trimming removes the white space around a value and keeps the one inside. -/
theorem TrimSpace_samples :
    strings.TrimSpace " \t ab c\r\n" = "ab c" ∧ strings.TrimSpace " " = "" ∧
      strings.TrimSpace "" = "" := by
  decide

/-! ## The handler, stage by stage -/

/-- A signature that is the hex digest under the trimmed secret passes the check. -/
theorem authenticate_signed (K : String) (B : List Nat) (hK : K ≠ "") :
    F.authenticate K
      (hex.EncodeToString (hmac.SumSHA512 (bytesOf (strings.TrimSpace K)) B)) B = none := by
  simp [F.authenticate, TrimSpace_of_no_space _ (EncodeToString_no_space _),
    DecodeString_EncodeToString _ (SumSHA512_lt _ _), hK, hmac.Equal]

/-- A header that is empty after trimming is not checked at all. -/
theorem authenticate_blank (K header : String) (B : List Nat)
    (h : strings.TrimSpace header = "") : F.authenticate K header B = none := by
  simp [F.authenticate, h]

/-- Past the configuration, the gate and the body, the handler is the signature check
followed by the delivery. -/
theorem F_of_postJSON (w : World) (r : Request) (B : List Nat) (hw : w.configured)
    (hr : r.postJSON B) :
    F w r =
      match F.authenticate (w.Getenv "TFE_WEBHOOK_TOKEN")
          (r.Header "X-TFE-Notification-Signature") B with
      | some stop => ⟨.readBody :: stop.trace, stop.term⟩
      | none =>
        ⟨.readBody :: (F.deliver w (w.Getenv "TEAMS_WEBHOOK_URL") B).trace,
          (F.deliver w (w.Getenv "TEAMS_WEBHOOK_URL") B).term⟩ := by
  obtain ⟨h1, h2⟩ := hw
  obtain ⟨h3, h4, h5⟩ := hr
  simp [F, h1, h2, h3, h4, h5]

/-- The delivery starts by decoding the body. -/
theorem deliver_trace (w : World) (url : String) (B : List Nat) :
    ∃ tail, (F.deliver w url B).trace = .unmarshal B :: tail := by
  unfold F.deliver
  split
  · exact ⟨_, rfl⟩
  · split
    · exact ⟨_, rfl⟩
    · split
      · exact ⟨_, rfl⟩
      · dsimp only
        split
        · exact ⟨_, rfl⟩
        · split <;> exact ⟨_, rfl⟩

/-! ## The signature check -/

/-- C4, as amended. For every body `B` and every non-empty secret `K`, a POST
`application/json` request whose signature header is the hex encoding of
HMAC-SHA512 of `B` under the white-space-trimmed `K` passes the check of `F`: no
mismatch response, no fatal exit of the check, and the handler goes on to decode `B`
(its outcome is reading the body followed by the delivery of `B`). -/
theorem F_accepts_signed (w : World) (r : Request) (B : List Nat) (hw : w.configured)
    (hr : r.postJSON B) (hK : w.Getenv "TFE_WEBHOOK_TOKEN" ≠ "")
    (hsig : r.Header "X-TFE-Notification-Signature" =
      hex.EncodeToString
        (hmac.SumSHA512 (bytesOf (strings.TrimSpace (w.Getenv "TFE_WEBHOOK_TOKEN"))) B)) :
    F.authenticate (w.Getenv "TFE_WEBHOOK_TOKEN") (r.Header "X-TFE-Notification-Signature") B
        = none ∧
      F w r = ⟨.readBody :: (F.deliver w (w.Getenv "TEAMS_WEBHOOK_URL") B).trace,
        (F.deliver w (w.Getenv "TEAMS_WEBHOOK_URL") B).term⟩ ∧
      ∃ tail, (F w r).trace = .readBody :: .unmarshal B :: tail := by
  have ha := authenticate_signed (w.Getenv "TFE_WEBHOOK_TOKEN") B hK
  rw [← hsig] at ha
  have hF := F_of_postJSON w r B hw hr
  rw [ha] at hF
  obtain ⟨tail, ht⟩ := deliver_trace w (w.Getenv "TEAMS_WEBHOOK_URL") B
  refine ⟨ha, hF, tail, ?_⟩
  rw [hF, ht]

/-- C4 as amended, on the sample: `sampleDocument` signed under `s3cret`. -/
theorem F_accepts_signed_witness :
    ∃ tail, (F (sampleWorld "s3cret" 200) (sampleRequest sampleSignature)).trace
      = .readBody :: .unmarshal (bytesOf sampleDocument) :: tail :=
  (F_accepts_signed (sampleWorld "s3cret" 200) (sampleRequest sampleSignature)
    (bytesOf sampleDocument) ⟨by decide, rfl⟩ ⟨rfl, rfl, rfl⟩ (by decide) (by decide!)).2.2

/-- C4 fails as stated: the secret ` k` (a space, then `k`) is non-empty, the header is
the hex encoding of HMAC-SHA512 of the body under ` k`, and `F` answers 400: it keys
the HMAC with the trimmed secret `k`. -/
theorem F_rejects_signed_with_untrimmed_secret :
    (" k" : String) ≠ "" ∧
    hex.EncodeToString (hmac.SumSHA512 (bytesOf " k") (bytesOf "\x7b\x7d")) =
      "14228f30d954e9bd7a61b0047719a7153824d744cf9a09443c082d026b0eeb35"
        ++ "42086368c47eb5e492fbf8efe4065f639d38272ac040adee8fef700d0062466a" ∧
    F (sampleWorld " k" 200)
      (Request.ofHeaders "POST"
        [("Content-Type", "application/json"),
         ("X-TFE-Notification-Signature",
          "14228f30d954e9bd7a61b0047719a7153824d744cf9a09443c082d026b0eeb35"
            ++ "42086368c47eb5e492fbf8efe4065f639d38272ac040adee8fef700d0062466a")]
        (bytesOf "\x7b\x7d"))
      = ⟨[.readBody,
          .log (.signatureMismatch
            ("14228f30d954e9bd7a61b0047719a7153824d744cf9a09443c082d026b0eeb35"
              ++ "42086368c47eb5e492fbf8efe4065f639d38272ac040adee8fef700d0062466a")
            ("aa566d059187e09f9e0557033a5557482a52a4aea29aee7a502f1301c945849b"
              ++ "04041b4151da85d55f45276cc4b039c810b0734b501ebd737a689a59c39d5749")),
          .writeHeader 400, .write (bytesOf "invalid request")], .returned⟩ := by
  decide!

/-- C5, as amended. For a POST `application/json` request with a non-empty secret and a
signature header that is non-empty after trimming: when the trimmed value hex-decodes
to bytes other than the HMAC-SHA512 digest of the raw body under the trimmed secret,
`F` answers 400 with body `invalid request` and does nothing more (no decoding, no call
of `toTeams`, no post); when the trimmed value is not valid hex, `F` exits fatally at
line 195 without writing a response, again with nothing more done. -/
theorem F_rejects_bad_signature (w : World) (r : Request) (B : List Nat)
    (hw : w.configured) (hr : r.postJSON B) (hK : w.Getenv "TFE_WEBHOOK_TOKEN" ≠ "")
    (hsig : strings.TrimSpace (r.Header "X-TFE-Notification-Signature") ≠ "") :
    (∀ got, hex.DecodeString (strings.TrimSpace (r.Header "X-TFE-Notification-Signature"))
          = .ok got →
        got ≠ hmac.SumSHA512 (bytesOf (strings.TrimSpace (w.Getenv "TFE_WEBHOOK_TOKEN"))) B →
        F w r = ⟨[.readBody,
            .log (.signatureMismatch (hex.EncodeToString got)
              (hex.EncodeToString
                (hmac.SumSHA512 (bytesOf (strings.TrimSpace (w.Getenv "TFE_WEBHOOK_TOKEN"))) B))),
            .writeHeader 400, .write (bytesOf "invalid request")], .returned⟩ ∧
        (F w r).status = some 400 ∧ (F w r).body = bytesOf "invalid request") ∧
    (∀ e, hex.DecodeString (strings.TrimSpace (r.Header "X-TFE-Notification-Signature"))
          = .error e →
        F w r = ⟨[.readBody, .log (.hexError e)], .fatal⟩ ∧ (F w r).status = none ∧
          (F w r).body = []) := by
  have hF := F_of_postJSON w r B hw hr
  constructor
  · intro got hd hne
    have hF2 : F w r = ⟨[.readBody,
        .log (.signatureMismatch (hex.EncodeToString got)
          (hex.EncodeToString
            (hmac.SumSHA512 (bytesOf (strings.TrimSpace (w.Getenv "TFE_WEBHOOK_TOKEN"))) B))),
        .writeHeader 400, .write (bytesOf "invalid request")], .returned⟩ := by
      rw [hF]
      simp [F.authenticate, hsig, hK, hd, hmac.Equal, hne, invalidRequest]
    refine ⟨hF2, ?_, ?_⟩ <;> rw [hF2] <;> rfl
  · intro e hd
    have hF2 : F w r = ⟨[.readBody, .log (.hexError e)], .fatal⟩ := by
      rw [hF]
      simp [F.authenticate, hsig, hK, hd]
    refine ⟨hF2, ?_, ?_⟩ <;> rw [hF2] <;> rfl

/-- C5 as amended, on the sample: the signature `00` is valid hex and not the digest. -/
theorem F_rejects_bad_signature_witness :
    (F (sampleWorld "s3cret" 200) (sampleRequest "00")).status = some 400 ∧
      (F (sampleWorld "s3cret" 200) (sampleRequest "00")).body = bytesOf "invalid request" :=
  ((F_rejects_bad_signature (sampleWorld "s3cret" 200) (sampleRequest "00")
    (bytesOf sampleDocument) ⟨by decide, rfl⟩ ⟨rfl, rfl, rfl⟩ (by decide) (by decide)).1
      [0] rfl (by decide!)).2

/-- C5 fails as stated: with the secret `s3cret` configured, the valid signature of
`sampleDocument` with one bit of its first digit flipped (`9`, 0x39, to `y`, 0x79) is
no hex string, and `F` exits fatally instead of answering 400: no response is written. -/
theorem F_fatal_on_bit_flipped_signature :
    F (sampleWorld "s3cret" 200)
        (sampleRequest ("ye550d7d975cd18c2bda58bcd52cf3e4bbe43484e1590b9bd8cbcd50938386c3"
          ++ "7b255193659320aec6b258d29af28d91a98f629ae4983b9329b7ef52fc6d7bb6"))
      = ⟨[.readBody, .log (.hexError (.InvalidByteError 0x79))], .fatal⟩ ∧
    (F (sampleWorld "s3cret" 200)
        (sampleRequest ("ye550d7d975cd18c2bda58bcd52cf3e4bbe43484e1590b9bd8cbcd50938386c3"
          ++ "7b255193659320aec6b258d29af28d91a98f629ae4983b9329b7ef52fc6d7bb6"))).status
      ≠ some 400 := by
  decide!

/-- C6. For a POST `application/json` request without a signature header, `F` skips the
signature check and goes on to decode the body, and its outcome is the same for every
value of `TFE_WEBHOOK_TOKEN`, the empty (unset) one included. -/
theorem F_unsigned_ignores_secret (w : World) (r : Request) (B : List Nat)
    (hw : w.configured) (hr : r.postJSON B)
    (hsig : r.Header "X-TFE-Notification-Signature" = "") :
    (∀ token, F (w.setenv "TFE_WEBHOOK_TOKEN" token) r = F w r) ∧
      F w r = ⟨.readBody :: (F.deliver w (w.Getenv "TEAMS_WEBHOOK_URL") B).trace,
        (F.deliver w (w.Getenv "TEAMS_WEBHOOK_URL") B).term⟩ ∧
      ∃ tail, (F w r).trace = .readBody :: .unmarshal B :: tail := by
  have hblank : ∀ K, F.authenticate K (r.Header "X-TFE-Notification-Signature") B = none :=
    fun K => authenticate_blank K _ B (by rw [hsig]; rfl)
  have hF := F_of_postJSON w r B hw hr
  rw [hblank] at hF
  obtain ⟨tail, ht⟩ := deliver_trace w (w.Getenv "TEAMS_WEBHOOK_URL") B
  refine ⟨?_, hF, tail, by rw [hF, ht]⟩
  intro token
  have hw2 : (w.setenv "TFE_WEBHOOK_TOKEN" token).configured := by
    obtain ⟨h1, h2⟩ := hw
    exact ⟨by simpa [World.setenv] using h1, by simpa [World.setenv] using h2⟩
  have hF2 := F_of_postJSON (w.setenv "TFE_WEBHOOK_TOKEN" token) r B hw2 hr
  rw [hblank] at hF2
  rw [hF, hF2]
  simp [World.setenv, F.deliver]

/-- C6, on the sample: the unsigned sample request under two different secrets. -/
theorem F_unsigned_ignores_secret_witness :
    F ((sampleWorld "s3cret" 200).setenv "TFE_WEBHOOK_TOKEN" "") (sampleRequest "")
      = F (sampleWorld "s3cret" 200) (sampleRequest "") :=
  (F_unsigned_ignores_secret (sampleWorld "s3cret" 200) (sampleRequest "")
    (bytesOf sampleDocument) ⟨by decide, rfl⟩ ⟨rfl, rfl, rfl⟩ rfl).1 ""

/-- C7, as amended. For a POST `application/json` request whose signature header is
non-empty after trimming, while `TFE_WEBHOOK_TOKEN` is empty or unset, `F` exits fatally
at line 183 whatever the body and the rest of the header value are: no response is
written, which differs from the 400 of a validation failure. -/
theorem F_fatal_without_secret (w : World) (r : Request) (B : List Nat)
    (hw : w.configured) (hr : r.postJSON B) (hK : w.Getenv "TFE_WEBHOOK_TOKEN" = "")
    (hsig : strings.TrimSpace (r.Header "X-TFE-Notification-Signature") ≠ "") :
    F w r = ⟨[.readBody, .log .tokenNotSet], .fatal⟩ ∧ (F w r).status = none ∧
      (F w r).body = [] ∧ (F w r).noResponse := by
  have hF2 : F w r = ⟨[.readBody, .log .tokenNotSet], .fatal⟩ := by
    rw [F_of_postJSON w r B hw hr]
    simp [F.authenticate, hsig, hK]
  refine ⟨hF2, ?_, ?_, ?_⟩
  · rw [hF2]; rfl
  · rw [hF2]; rfl
  · rw [hF2]
    intro e he
    simp only [List.mem_cons, List.mem_singleton, List.not_mem_nil, or_false] at he
    rcases he with rfl | rfl <;> simp

/-- C7 as amended, on the sample: a signed request and no secret. -/
theorem F_fatal_without_secret_witness :
    F (sampleWorld "" 200) (sampleRequest sampleSignature)
      = ⟨[.readBody, .log .tokenNotSet], .fatal⟩ :=
  (F_fatal_without_secret (sampleWorld "" 200) (sampleRequest sampleSignature)
    (bytesOf sampleDocument) ⟨by decide, rfl⟩ ⟨rfl, rfl, rfl⟩ rfl (by decide)).1

/-- C7 fails as stated: the request carries a signature header whose value is a single
space, no secret is configured, and `F` does not exit fatally: the header is taken as
absent, the body is delivered and the answer is 200. -/
theorem F_blank_signature_without_secret_not_fatal :
    (F (sampleWorld "" 200) (sampleRequest " ")).term = .returned ∧
      (F (sampleWorld "" 200) (sampleRequest " ")).status = some 200 ∧
      (F (sampleWorld "" 200) (sampleRequest " ")).trace.take 3 =
        [.readBody, .unmarshal (bytesOf sampleDocument), .callToTeams samplePayload] := by
  decide!

/-! ## The version check and the request gate -/

/-- C8. For a request that passes the gate and the signature check and whose body
decodes to a payload of a version other than 1, `F` answers 400 with body
`invalid request`, never calls `toTeams` and never posts to the webhook, whatever the
notifications list is. -/
theorem F_rejects_version (w : World) (r : Request) (B : List Nat)
    (p : TFENotificationPayload) (hw : w.configured) (hr : r.postJSON B)
    (hauth : F.authenticate (w.Getenv "TFE_WEBHOOK_TOKEN")
      (r.Header "X-TFE-Notification-Signature") B = none)
    (hp : w.jsonUnmarshal B = .ok p) (hv : p.PayloadVersion ≠ 1) :
    F w r = ⟨[.readBody, .unmarshal B, .log (.versionNotSupported p.PayloadVersion),
        .writeHeader 400, .write (bytesOf "invalid request")], .returned⟩ ∧
      (F w r).status = some 400 ∧ (F w r).body = bytesOf "invalid request" ∧
      (∀ q, .callToTeams q ∉ (F w r).trace) ∧
      (∀ url contentType body, .post url contentType body ∉ (F w r).trace) := by
  have hF2 : F w r = ⟨[.readBody, .unmarshal B, .log (.versionNotSupported p.PayloadVersion),
      .writeHeader 400, .write (bytesOf "invalid request")], .returned⟩ := by
    rw [F_of_postJSON w r B hw hr, hauth]
    simp [F.deliver, hp, hv, invalidRequest]
  refine ⟨hF2, ?_, ?_, ?_, ?_⟩
  · rw [hF2]; rfl
  · rw [hF2]; rfl
  · intro q
    rw [hF2]
    simp
  · intro url contentType body
    rw [hF2]
    simp

/-- C8, on a sample: the unsigned document `{}` decodes to version 0 and an empty
notifications list. -/
theorem F_rejects_version_witness :
    (F (sampleWorld "s3cret" 200)
      (Request.ofHeaders "POST" [("Content-Type", "application/json")]
        (bytesOf "\x7b\x7d"))).status = some 400 :=
  (F_rejects_version (sampleWorld "s3cret" 200)
    (Request.ofHeaders "POST" [("Content-Type", "application/json")] (bytesOf "\x7b\x7d"))
    (bytesOf "\x7b\x7d") zeroPayload ⟨by decide, rfl⟩ ⟨rfl, rfl, rfl⟩ rfl rfl (by decide)).2.1

/-- C9. With the webhook URL configured, for a request whose method is not POST or
whose content type is not exactly `application/json`, `F` answers 400 with body
`invalid request` at the gate: the body is not read or decoded, nothing is posted, and
the outcome is the same for every request with that method and content type under every
configured world, so neither the signature header nor the secret is looked at. -/
theorem F_gate_rejects (w : World) (r : Request) (hw : w.configured)
    (hg : r.Method ≠ "POST" ∨ r.Header "Content-Type" ≠ "application/json") :
    F w r = ⟨[.log (.invalidMethodContentType r.Method (r.Header "Content-Type")),
        .writeHeader 400, .write (bytesOf "invalid request")], .returned⟩ ∧
      (F w r).status = some 400 ∧ (F w r).body = bytesOf "invalid request" ∧
      .readBody ∉ (F w r).trace ∧ (∀ data, .unmarshal data ∉ (F w r).trace) ∧
      (∀ url contentType body, .post url contentType body ∉ (F w r).trace) ∧
      (∀ (w2 : World) (r2 : Request), w2.configured → r2.Method = r.Method →
        r2.Header "Content-Type" = r.Header "Content-Type" → F w2 r2 = F w r) := by
  have key : ∀ (w2 : World) (r2 : Request), w2.configured →
      (r2.Method ≠ "POST" ∨ r2.Header "Content-Type" ≠ "application/json") →
      F w2 r2 = ⟨[.log (.invalidMethodContentType r2.Method (r2.Header "Content-Type")),
        .writeHeader 400, .write (bytesOf "invalid request")], .returned⟩ := by
    intro w2 r2 h2 hg2
    obtain ⟨h1, h2⟩ := h2
    simp only [F, h1, h2, if_false]
    rw [if_pos hg2]
    rfl
  have hF2 := key w r hw hg
  refine ⟨hF2, ?_, ?_, ?_, ?_, ?_, ?_⟩
  · rw [hF2]; rfl
  · rw [hF2]; rfl
  · rw [hF2]; simp
  · intro data
    rw [hF2]; simp
  · intro url contentType body
    rw [hF2]; simp
  · intro w2 r2 hw2 hm hc
    rw [hF2, key w2 r2 hw2 (by rw [hm, hc]; exact hg), hm, hc]

/-- C9, on a sample: a signed GET of the sample document. -/
theorem F_gate_rejects_witness :
    (F (sampleWorld "s3cret" 200)
      (Request.ofHeaders "GET"
        [("Content-Type", "application/json"),
         ("X-TFE-Notification-Signature", sampleSignature)]
        (bytesOf sampleDocument))).status = some 400 :=
  (F_gate_rejects (sampleWorld "s3cret" 200)
    (Request.ofHeaders "GET"
      [("Content-Type", "application/json"), ("X-TFE-Notification-Signature", sampleSignature)]
      (bytesOf sampleDocument))
    ⟨by decide, rfl⟩ (Or.inl (by decide))).2.1

/-! ## End to end -/

/-- C10, as amended. For a signed POST (the header is the hex HMAC-SHA512 of the body
under the trimmed, non-empty secret) whose body decodes to a version 1 payload with every
optional field set and first trigger `run:completed`, when the webhook answers a status
from 200 to 299, `F` answers 200 with the serialization of the card of `toTeams`
followed by a newline; that card has the title `<message> in <workspace>.`, the colour
`#a0d911`, one section with 4 facts, and one action whose target is `run_url`. -/
theorem F_end_to_end (w : World) (r : Request) (B : List Nat) (p : TFENotificationPayload)
    (n : TFENotification) (rest : List TFENotification) (status : Int)
    (hw : w.configured) (hr : r.postJSON B) (hK : w.Getenv "TFE_WEBHOOK_TOKEN" ≠ "")
    (hsig : r.Header "X-TFE-Notification-Signature" =
      hex.EncodeToString
        (hmac.SumSHA512 (bytesOf (strings.TrimSpace (w.Getenv "TFE_WEBHOOK_TOKEN"))) B))
    (hp : w.jsonUnmarshal B = .ok p) (hv : p.PayloadVersion = 1)
    (hn : p.Notifications = n :: rest) (ht : n.Trigger = "run:completed")
    (hfull : p.OrganizationName ≠ "" ∧ p.RunID ≠ "" ∧ p.RunCreatedBy ≠ "" ∧
      p.RunCreatedAt.IsZero = false ∧ p.WorkspaceName ≠ "" ∧ p.RunURL ≠ "" ∧
      n.RunUpdatedBy ≠ "" ∧ n.RunUpdatedAt.IsZero = false)
    (hpost : ∀ card logged, toTeams p = some (card, logged) →
      w.httpPost (w.Getenv "TEAMS_WEBHOOK_URL") "application/json" (w.jsonMarshal card)
        = .ok status)
    (h2xx : 200 ≤ status ∧ status < 300) :
    ∃ card logged section_ action, toTeams p = some (card, logged) ∧
      (F w r).term = .returned ∧ (F w r).status = some 200 ∧
      (F w r).body = w.jsonMarshal card ++ [0x0A] ∧
      card.Title = n.Message ++ " in " ++ p.WorkspaceName ++ "." ∧
      card.ThemeColor = "#a0d911" ∧
      card.Sections = [section_] ∧ section_.Facts.length = 4 ∧
      card.PotentialActions = [action] ∧
      action.Targets = [[("os", "default"), ("uri", p.RunURL)]] := by
  obtain ⟨h1, h2, h3, h4, h5, _, _, _⟩ := hfull
  have hcard := toTeams_cons p n rest hn
  have ha := authenticate_signed (w.Getenv "TFE_WEBHOOK_TOKEN") B hK
  rw [← hsig] at ha
  have hF := F_of_postJSON w r B hw hr
  rw [ha] at hF
  have hs : ¬ (status < 200 ∨ status ≥ 300) := by omega
  simp only [F.deliver, hp, hv, hcard, hpost _ _ hcard, ne_eq, not_true_eq_false, if_false,
    hs] at hF
  refine ⟨_, _, _, _, hcard, ?_, ?_, ?_, ?_, ?_, rfl, ?_, rfl, rfl⟩
  · rw [hF]
  · rw [hF]; rfl
  · rw [hF]
    simp [Outcome.body]
  · simp [h5]
  · simp only [ht]
    decide
  · simp [h1, h2, h3, h4]

/-- C10 as amended, on the sample: the signed sample document, the webhook answering
200. -/
theorem F_end_to_end_witness :
    ∃ card logged section_ action, toTeams samplePayload = some (card, logged) ∧
      (F (sampleWorld "s3cret" 200) (sampleRequest sampleSignature)).term = .returned ∧
      (F (sampleWorld "s3cret" 200) (sampleRequest sampleSignature)).status = some 200 ∧
      (F (sampleWorld "s3cret" 200) (sampleRequest sampleSignature)).body
        = bytesOf (sampleMarshal card) ++ [0x0A] ∧
      card.Title = "Run done" ++ " in " ++ "prod" ++ "." ∧
      card.ThemeColor = "#a0d911" ∧
      card.Sections = [section_] ∧ section_.Facts.length = 4 ∧
      card.PotentialActions = [action] ∧
      action.Targets = [[("os", "default"),
        ("uri", "https://app.terraform.io/app/acme/prod/runs/run-1")]] :=
  F_end_to_end (sampleWorld "s3cret" 200) (sampleRequest sampleSignature)
    (bytesOf sampleDocument) samplePayload
    ⟨"Run done", "run:completed", "applied", ⟨63684038224, 0, 0⟩, "bob"⟩ [] 200
    ⟨by decide, rfl⟩ ⟨rfl, rfl, rfl⟩ (by decide) (by decide!) (by simp [sampleWorld]) rfl rfl
    rfl (by decide) (fun _ _ _ => rfl) (by decide)

/-- C10 fails as stated: on the signed sample document (every optional field set, trigger
`run:completed`, the webhook answering 200) `F` answers 200 with a card of the expected
title, colour, section and action, but with 4 facts, not 3. -/
theorem F_end_to_end_has_four_facts :
    (F (sampleWorld "s3cret" 200) (sampleRequest sampleSignature)).status = some 200 ∧
    (F (sampleWorld "s3cret" 200) (sampleRequest sampleSignature)).body =
      bytesOf ("\x7b\"@type\":\"MessageCard\","
        ++ "\"@context\":\"https://schema.org/extensions\","
        ++ "\"summary\":\"Run done in prod.\",\"title\":\"Run done in prod.\","
        ++ "\"text\":\"Queued manually\",\"themeColor\":\"#a0d911\","
        ++ "\"sections\":[\x7b\"activityTitle\":\"bob\","
        ++ "\"activitySubtitle\":\"25/01/2019 18:37:04\","
        ++ "\"facts\":[\x7b\"name\":\"Organisation\",\"value\":\"acme\"\x7d,"
        ++ "\x7b\"name\":\"Run ID\",\"value\":\"run-1\"\x7d,"
        ++ "\x7b\"name\":\"Run Created By\",\"value\":\"alice\"\x7d,"
        ++ "\x7b\"name\":\"Run Created At\","
        ++ "\"value\":\"25/01/2019 18:34:00\"\x7d]\x7d],"
        ++ "\"potentialAction\":[\x7b\"@type\":\"OpenUri\",\"name\":\"View Run\","
        ++ "\"targets\":[\x7b\"os\":\"default\","
        ++ "\"uri\":\"https://app.terraform.io/app/acme/prod/runs/run-1\"\x7d]\x7d]\x7d") ++ [0x0A] ∧
    (toTeams samplePayload).map (fun c => c.1.Sections.map fun s => s.Facts.map Fact.Name) =
      some [["Organisation", "Run ID", "Run Created By", "Run Created At"]] ∧
    (toTeams samplePayload).map (fun c => c.1.Sections.map fun s => s.Facts.length) ≠
      some [3] := by
  decide!

/-! ## The translator: shape of the card, activity, times, dependence, logging -/

/-- C11. For a payload with at least one notification, the card of `toTeams` has type
`MessageCard`, context `https://schema.org/extensions`, the run message as its text,
exactly one section, and exactly one action, of type `OpenUri` and name `View Run`, with
exactly one target, of `os` `default` and `uri` the run URL, the empty one included. -/
theorem toTeams_card_shape (p : TFENotificationPayload) (n : TFENotification)
    (rest : List TFENotification) (h : p.Notifications = n :: rest) :
    ∃ card logged section_ action, toTeams p = some (card, logged) ∧
      card.Type_ = "MessageCard" ∧ card.Context = "https://schema.org/extensions" ∧
      card.Text = p.RunMessage ∧ card.Sections = [section_] ∧
      card.PotentialActions = [action] ∧ action.Type_ = "OpenUri" ∧
      action.Name = "View Run" ∧
      action.Targets = [[("os", "default"), ("uri", p.RunURL)]] ∧
      (p.RunURL = "" → action.Targets = [[("os", "default"), ("uri", "")]]) := by
  refine ⟨_, _, _, _, toTeams_cons p n rest h, rfl, rfl, rfl, rfl, rfl, rfl, rfl, rfl, ?_⟩
  intro hu
  simp [hu]

/-- C11, on a sample: the zero payload with one notification, so an empty run URL. -/
theorem toTeams_card_shape_witness :
    ∃ card logged section_ action,
      toTeams { zeroPayload with Notifications := [⟨"Run done", "run:created", "", ⟨0, 0, 0⟩, ""⟩] }
        = some (card, logged) ∧
      card.Type_ = "MessageCard" ∧ card.Text = "" ∧ card.Sections = [section_] ∧
      card.PotentialActions = [action] ∧
      action.Targets = [[("os", "default"), ("uri", "")]] := by
  obtain ⟨card, logged, s, a, h1, h2, _, h4, h5, h6, _, _, _, h10⟩ :=
    toTeams_card_shape
      { zeroPayload with Notifications := [⟨"Run done", "run:created", "", ⟨0, 0, 0⟩, ""⟩] }
      ⟨"Run done", "run:created", "", ⟨0, 0, 0⟩, ""⟩ [] rfl
  exact ⟨card, logged, s, a, h1, h2, h4, h5, h6, h10 rfl⟩

/-- C14. For a payload with at least one notification, the section of the card has the
updater of the first notification as its activity title (so an empty title exactly for
an empty updater) and, as its activity subtitle, the formatted update time when that
time is non-zero and the empty string when it is zero; neither depends on the other
field. -/
theorem toTeams_activity (p : TFENotificationPayload) (n : TFENotification)
    (rest : List TFENotification) (h : p.Notifications = n :: rest) :
    ∃ card logged section_, toTeams p = some (card, logged) ∧ card.Sections = [section_] ∧
      section_.ActivityTitle = n.RunUpdatedBy ∧
      (section_.ActivityTitle = "" ↔ n.RunUpdatedBy = "") ∧
      (n.RunUpdatedAt.IsZero = false → section_.ActivitySubtitle = n.RunUpdatedAt.Format) ∧
      (n.RunUpdatedAt.IsZero = true → section_.ActivitySubtitle = "") := by
  refine ⟨_, _, _, toTeams_cons p n rest h, rfl, rfl, Iff.rfl, ?_, ?_⟩
  · intro hz
    simp [hz]
  · intro hz
    simp [hz]

/-- C14, on the sample payload: updater `bob`, updated at 18:37:04. -/
theorem toTeams_activity_witness :
    ∃ card logged section_, toTeams samplePayload = some (card, logged) ∧
      card.Sections = [section_] ∧ section_.ActivityTitle = "bob" ∧
      section_.ActivitySubtitle = "25/01/2019 18:37:04" := by
  obtain ⟨card, logged, s, h1, h2, h3, _, h5, _⟩ :=
    toTeams_activity samplePayload
      ⟨"Run done", "run:completed", "applied", ⟨63684038224, 0, 0⟩, "bob"⟩ [] rfl
  exact ⟨card, logged, s, h1, h2, h3, (h5 (by decide)).trans (by decide)⟩

/-- The days before each month: the table of a common year, and one more from March on
in a leap year. -/
theorem daysBeforeMonth_cases (y : Int) :
    Calendar.daysBeforeMonth y 1 = 0 ∧
    Calendar.daysBeforeMonth y 2 = 31 ∧
    Calendar.daysBeforeMonth y 3 = 59 + (if Calendar.isLeap y then 1 else 0) ∧
    Calendar.daysBeforeMonth y 4 = 90 + (if Calendar.isLeap y then 1 else 0) ∧
    Calendar.daysBeforeMonth y 5 = 120 + (if Calendar.isLeap y then 1 else 0) ∧
    Calendar.daysBeforeMonth y 6 = 151 + (if Calendar.isLeap y then 1 else 0) ∧
    Calendar.daysBeforeMonth y 7 = 181 + (if Calendar.isLeap y then 1 else 0) ∧
    Calendar.daysBeforeMonth y 8 = 212 + (if Calendar.isLeap y then 1 else 0) ∧
    Calendar.daysBeforeMonth y 9 = 243 + (if Calendar.isLeap y then 1 else 0) ∧
    Calendar.daysBeforeMonth y 10 = 273 + (if Calendar.isLeap y then 1 else 0) ∧
    Calendar.daysBeforeMonth y 11 = 304 + (if Calendar.isLeap y then 1 else 0) ∧
    Calendar.daysBeforeMonth y 12 = 334 + (if Calendar.isLeap y then 1 else 0) := by
  cases h : Calendar.isLeap y <;>
    simp [Calendar.daysBeforeMonth, Calendar.daysIn, h, List.range_succ]


/-- A day of a 400-year era, split into century, four-year cycle and rest, and the year
of the era computed from it. -/
theorem era_year (doe yoe : Int) (h0 : 0 ≤ doe) (h1 : doe < 146097)
    (hyoe : (doe - doe / 1460 + doe / 36524 - doe / 146096) / 365 = yoe) :
    ∃ c q k r : Int, (0 ≤ c ∧ c ≤ 3) ∧ (0 ≤ q ∧ q ≤ 24) ∧ (0 ≤ k ∧ k ≤ 3) ∧
      doe = 36524 * c + 1461 * q + r ∧ yoe = 100 * c + 4 * q + k ∧ 365 * k ≤ r ∧
      (r ≤ 365 * k + 364 ∨ (r = 365 * k + 365 ∧ k = 3 ∧ (q < 24 ∨ c = 3))) := by
  by_cases hlast : doe = 146096
  · subst hlast
    refine ⟨3, 24, 3, 1460, ?_⟩
    omega
  · have hc : 0 ≤ doe / 36524 ∧ doe / 36524 ≤ 3 := by omega
    have hq : 0 ≤ doe % 36524 / 1461 ∧ doe % 36524 / 1461 ≤ 24 := by omega
    have hr : 0 ≤ doe % 36524 % 1461 ∧ doe % 36524 % 1461 ≤ 1460 := by omega
    have hd : doe = 36524 * (doe / 36524) + 1461 * (doe % 36524 / 1461)
        + doe % 36524 % 1461 := by omega
    have hz : doe / 146096 = 0 := by omega
    have hm : 1461 * (doe % 36524 / 1461) + doe % 36524 % 1461 ≤ 36523 := by omega
    generalize doe / 36524 = c at *
    generalize doe % 36524 / 1461 = q at *
    generalize doe % 36524 % 1461 = r at *
    have hb : doe / 1460 = 25 * c + q ∨ (doe / 1460 = 25 * c + q + 1 ∧ 1364 ≤ r) := by
      omega
    by_cases hr2 : r = 1460
    · refine ⟨c, q, 3, r, hc, hq, by omega, hd, ?_, by omega, ?_⟩
      · rcases hb with hb | ⟨hb, _⟩ <;> rw [hb, hz] at hyoe <;> omega
      · right
        omega
    · refine ⟨c, q, r / 365, r, hc, hq, by omega, hd, ?_, by omega, ?_⟩
      · rcases hb with hb | ⟨hb, _⟩ <;> rw [hb, hz] at hyoe <;> omega
      · left
        omega

/-- The days before a year, from its place in the era, the century and the four-year
cycle; and when the year after it is a leap year. -/
theorem daysBeforeYear_era (era c q k : Int) (hc : 0 ≤ c ∧ c ≤ 3) (hq : 0 ≤ q ∧ q ≤ 24)
    (hk : 0 ≤ k ∧ k ≤ 3) :
    Calendar.daysBeforeYear (400 * era + 100 * c + 4 * q + k + 1)
        = 146097 * era + 36524 * c + 1461 * q + 365 * k ∧
      Calendar.daysBeforeYear (400 * era + 100 * c + 4 * q + k)
        = 146097 * era + 36524 * c + 1461 * q + 365 * k - 365
          - (if Calendar.isLeap (400 * era + 100 * c + 4 * q + k) then 1 else 0) ∧
      (Calendar.isLeap (400 * era + 100 * c + 4 * q + k + 1) = true ↔
        k = 3 ∧ (q < 24 ∨ c = 3)) := by
  refine ⟨?_, ?_, ?_⟩
  · unfold Calendar.daysBeforeYear
    omega
  · have hl : Calendar.isLeap (400 * era + 100 * c + 4 * q + k) = true ↔
        k = 0 ∧ (0 < q ∨ c = 0) := by
      simp only [Calendar.isLeap, decide_eq_true_eq]
      omega
    unfold Calendar.daysBeforeYear
    by_cases h : Calendar.isLeap (400 * era + 100 * c + 4 * q + k) = true
    · have h2 := hl.mp h
      rw [if_pos h]
      omega
    · have h2 : ¬ (k = 0 ∧ (0 < q ∨ c = 0)) := fun hh => h (hl.mpr hh)
      rw [if_neg h]
      omega
  · simp only [Calendar.isLeap, decide_eq_true_eq]
    omega

/-- The fields of `Time.civil` are the calendar date of the day number: a month from 1
to 12, a day of that month, and the day number of that date is the one given. -/
theorem civil_spec (days : Int) :
    Calendar.dayNumber (Time.civil days).1 (Time.civil days).2.1 (Time.civil days).2.2 = days ∧
      1 ≤ (Time.civil days).2.1 ∧ (Time.civil days).2.1 ≤ 12 ∧
      1 ≤ (Time.civil days).2.2 ∧
      (Time.civil days).2.2 ≤ Calendar.daysIn (Time.civil days).1 (Time.civil days).2.1 := by
  simp only [Time.civil]
  have hdoe0 : 0 ≤ (days + 306) % 146097 ∧ (days + 306) % 146097 < 146097 := by omega
  have hdays : days = 146097 * ((days + 306) / 146097) + (days + 306) % 146097 - 306 := by
    omega
  generalize (days + 306) % 146097 = doe at *
  generalize (days + 306) / 146097 = era at *
  obtain ⟨c, q, k, r, hc, hq, hk, hd, hy, hr1, hr2⟩ := era_year doe _ hdoe0.1 hdoe0.2 rfl
  generalize (doe - doe / 1460 + doe / 36524 - doe / 146096) / 365 = yoe at *
  have hy4 : yoe / 4 = 25 * c + q := by omega
  have hy100 : yoe / 100 = c := by omega
  rw [hy4, hy100]
  have hdoy : doe - (365 * yoe + (25 * c + q) - c) = r - 365 * k := by omega
  rw [hdoy]
  have hyear : ∀ x : Int, yoe + era * 400 + x = 400 * era + 100 * c + 4 * q + k + x := by
    intro x
    omega
  rw [hyear]
  subst hdays
  clear hy4 hy100 hdoy hyear hy hdoe0
  subst hd
  generalize hmp : (5 * (r - 365 * k) + 2) / 153 = mp
  have hmp0 : mp = 0 ∨ mp = 1 ∨ mp = 2 ∨ mp = 3 ∨ mp = 4 ∨ mp = 5 ∨ mp = 6 ∨ mp = 7 ∨
      mp = 8 ∨ mp = 9 ∨ mp = 10 ∨ mp = 11 := by omega
  obtain ⟨y1, y0, l1⟩ := daysBeforeYear_era era c q k hc hq hk
  obtain ⟨m1, m2, _⟩ := daysBeforeMonth_cases (400 * era + 100 * c + 4 * q + k + 1)
  obtain ⟨_, _, n3, n4, n5, n6, n7, n8, n9, n10, n11, n12⟩ :=
    daysBeforeMonth_cases (400 * era + 100 * c + 4 * q + k)
  generalize hL : (if Calendar.isLeap (400 * era + 100 * c + 4 * q + k) = true then (1 : Int)
    else 0) = L at *
  rcases hmp0 with h | h | h | h | h | h | h | h | h | h | h | h
  iterate 10
    subst h
    norm_num
    simp only [Calendar.dayNumber, Calendar.daysIn, y0,
      n3, n4, n5, n6, n7, n8, n9, n10, n11, n12]
    norm_num
    omega
  iterate 2
    subst h
    norm_num
    simp only [Calendar.dayNumber, Calendar.daysIn, y1, m1, m2]
    by_cases hl : Calendar.isLeap (400 * era + 100 * c + 4 * q + k + 1) = true
    · have hl2 := l1.mp hl
      simp only [hl, if_true]
      norm_num
      omega
    · have hl2 : ¬ (k = 3 ∧ (q < 24 ∨ c = 3)) := fun hh => hl (l1.mpr hh)
      simp only [hl, if_false]
      norm_num
      omega

/-- The count of days before a year starts at 0 for year 1 and grows by the length of
each year, 366 days for a leap year and 365 otherwise. -/
theorem daysBeforeYear_succ (y : Int) :
    Calendar.daysBeforeYear 1 = 0 ∧
      Calendar.daysBeforeYear (y + 1) =
        Calendar.daysBeforeYear y + (if Calendar.isLeap y then 366 else 365) := by
  refine ⟨by decide, ?_⟩
  unfold Calendar.daysBeforeYear
  by_cases h : Calendar.isLeap y = true
  · rw [if_pos h]
    simp only [Calendar.isLeap, decide_eq_true_eq] at h
    omega
  · rw [if_neg h]
    simp only [Calendar.isLeap, decide_eq_true_eq] at h
    omega

/-- The day numbers of three dates: the first day, the Unix epoch, and the day of the
sample payload. -/
theorem dayNumber_samples :
    Calendar.dayNumber 1 1 1 = 0 ∧ Calendar.dayNumber 1970 1 1 = 719162 ∧
      Calendar.dayNumber 2019 1 25 = 737083 ∧ 737083 * 86400 + 18 * 3600 + 34 * 60
        = (63684038040 : Int) := by
  decide

/-- Month and day of a day number are a month and a day of the month. -/
theorem civil_month_day (days : Int) :
    1 ≤ (Time.civil days).2.1 ∧ (Time.civil days).2.1 ≤ 12 ∧
      1 ≤ (Time.civil days).2.2 ∧ (Time.civil days).2.2 ≤ 31 := by
  simp only [Time.civil]
  split <;> omega

theorem toDigitsCore_step (f n : Nat) (ds : List Char) :
    Nat.toDigitsCore 10 (f + 1) n ds =
      if n / 10 = 0 then Nat.digitChar (n % 10) :: ds
      else Nat.toDigitsCore 10 f (n / 10) (Nat.digitChar (n % 10) :: ds) := by
  simp [Nat.toDigitsCore]

/-- The decimal digits of a number below 10000, padded with zeros to four. -/
theorem toDigits_four (n : Nat) (h : n < 10000) :
    List.replicate (4 - (Nat.toDigits 10 n).length) (Char.ofNat 0x30) ++ Nat.toDigits 10 n =
      [Nat.digitChar (n / 1000), Nat.digitChar (n / 100 % 10), Nat.digitChar (n / 10 % 10),
        Nat.digitChar (n % 10)] := by
  unfold Nat.toDigits
  by_cases h1 : n < 10
  · have e1 : n / 10 = 0 := by omega
    have e2 : n / 1000 = 0 := by omega
    have e3 : n / 100 = 0 := by omega
    rw [toDigitsCore_step, if_pos e1, e1, e2, e3]
    rfl
  by_cases h2 : n < 100
  · obtain ⟨k, rfl⟩ : ∃ k, n = k + 1 := ⟨n - 1, by omega⟩
    have e1 : ¬ (k + 1) / 10 = 0 := by omega
    have e2 : (k + 1) / 10 / 10 = 0 := by omega
    have e3 : (k + 1) / 1000 = 0 := by omega
    have e4 : (k + 1) / 100 = 0 := by omega
    have e5 : (k + 1) / 10 % 10 = (k + 1) / 10 := by omega
    rw [toDigitsCore_step, if_neg e1, toDigitsCore_step, if_pos e2, e3, e4, e5]
    rfl
  by_cases h3 : n < 1000
  · obtain ⟨k, rfl⟩ : ∃ k, n = k + 2 := ⟨n - 2, by omega⟩
    have e1 : ¬ (k + 2) / 10 = 0 := by omega
    have e2 : ¬ (k + 2) / 10 / 10 = 0 := by omega
    have e3 : (k + 2) / 10 / 10 / 10 = 0 := by omega
    have e4 : (k + 2) / 1000 = 0 := by omega
    have e5 : (k + 2) / 10 / 10 % 10 = (k + 2) / 100 % 10 := by omega
    rw [show k + 2 + 1 = (k + 2) + 1 from rfl, toDigitsCore_step, if_neg e1, toDigitsCore_step,
      if_neg e2, toDigitsCore_step, if_pos e3, e4, e5]
    rfl
  · obtain ⟨k, rfl⟩ : ∃ k, n = k + 3 := ⟨n - 3, by omega⟩
    have e1 : ¬ (k + 3) / 10 = 0 := by omega
    have e2 : ¬ (k + 3) / 10 / 10 = 0 := by omega
    have e3 : ¬ (k + 3) / 10 / 10 / 10 = 0 := by omega
    have e4 : (k + 3) / 10 / 10 / 10 / 10 = 0 := by omega
    have e5 : (k + 3) / 10 / 10 % 10 = (k + 3) / 100 % 10 := by omega
    have e6 : (k + 3) / 10 / 10 / 10 % 10 = (k + 3) / 1000 := by omega
    rw [show k + 3 + 1 = (k + 3) + 1 from rfl, toDigitsCore_step, if_neg e1, toDigitsCore_step,
      if_neg e2, toDigitsCore_step, if_neg e3, toDigitsCore_step, if_pos e4, e5, e6]
    rfl

/-- The decimal digits of a number below 100, padded with zeros to two. -/
theorem toDigits_two (n : Nat) (h : n < 100) :
    List.replicate (2 - (Nat.toDigits 10 n).length) (Char.ofNat 0x30) ++ Nat.toDigits 10 n =
      [Nat.digitChar (n / 10), Nat.digitChar (n % 10)] := by
  unfold Nat.toDigits
  by_cases h1 : n < 10
  · have e1 : n / 10 = 0 := by omega
    rw [toDigitsCore_step, if_pos e1, e1]
    rfl
  · obtain ⟨k, rfl⟩ : ∃ k, n = k + 1 := ⟨n - 1, by omega⟩
    have e1 : ¬ (k + 1) / 10 = 0 := by omega
    have e2 : (k + 1) / 10 / 10 = 0 := by omega
    have e5 : (k + 1) / 10 % 10 = (k + 1) / 10 := by omega
    rw [toDigitsCore_step, if_neg e1, toDigitsCore_step, if_pos e2, e5]
    rfl

/-- The helper `appendInt` on a value from 0 to 99 and width 2, and on a value from 0 to
9999 and width 4. -/
theorem appendInt_fixed (x : Int) (h0 : 0 ≤ x) :
    (x < 100 → Time.appendInt x 2 =
      ⟨[Nat.digitChar (x.toNat / 10), Nat.digitChar (x.toNat % 10)]⟩) ∧
    (x < 10000 → Time.appendInt x 4 =
      ⟨[Nat.digitChar (x.toNat / 1000), Nat.digitChar (x.toNat / 100 % 10),
        Nat.digitChar (x.toNat / 10 % 10), Nat.digitChar (x.toNat % 10)]⟩) := by
  obtain ⟨n, rfl⟩ := Int.eq_ofNat_of_zero_le h0
  have hneg : ¬ ((n : Int) < 0) := by omega
  constructor
  · intro h
    have hn : n < 100 := by omega
    simp only [Time.appendInt, hneg, if_false, Int.natAbs_ofNat, Int.toNat_ofNat,
      toDigits_two n hn]
    rfl
  · intro h
    have hn : n < 10000 := by omega
    simp only [Time.appendInt, hneg, if_false, Int.natAbs_ofNat, Int.toNat_ofNat,
      toDigits_four n hn]
    rfl


/-- C15. For a time `t` other than the zero instant (its seconds or its nanoseconds
since January 1 of year 1, 00:00:00 UTC, are not 0) whose year is from 0 to 9999, what
`toTeams` emits for it, as the value of the fact `Run Created At` when `t` is the creation time and as the
activity subtitle when `t` is the update time of the first notification, is the string
of 19 characters `DD/MM/YYYY HH:MM:SS` made of the day, month, year, hour (0 to 23),
minute and second of `t` itself, each padded with zeros to its width; it is a function
of `t` alone. The six fields are those of the instant of `t` at its own offset: the
seconds since January 1 of year 1 at that offset are the day number of the calendar
date year-month-day, a day of that month, times 86400, plus the seconds of the hour,
minute and second. -/
theorem toTeams_time_layout (p : TFENotificationPayload) (n : TFENotification)
    (rest : List TFENotification) (t : Time) (h : p.Notifications = n :: rest)
    (hnz : t.sec ≠ 0 ∨ t.nsec ≠ 0) (hy0 : 0 ≤ t.Year) (hy1 : t.Year ≤ 9999) :
    ∃ card logged section_, toTeams p = some (card, logged) ∧ card.Sections = [section_] ∧
      (p.RunCreatedAt = t → ⟨"Run Created At", t.Format⟩ ∈ section_.Facts) ∧
      (n.RunUpdatedAt = t → section_.ActivitySubtitle = t.Format) ∧
      t.Format.length = 19 ∧
      t.Format =
        ⟨[Nat.digitChar (t.Day.toNat / 10), Nat.digitChar (t.Day.toNat % 10), '/',
          Nat.digitChar (t.Month.toNat / 10), Nat.digitChar (t.Month.toNat % 10), '/',
          Nat.digitChar (t.Year.toNat / 1000), Nat.digitChar (t.Year.toNat / 100 % 10),
          Nat.digitChar (t.Year.toNat / 10 % 10), Nat.digitChar (t.Year.toNat % 10), ' ',
          Nat.digitChar (t.Hour.toNat / 10), Nat.digitChar (t.Hour.toNat % 10), ':',
          Nat.digitChar (t.Minute.toNat / 10), Nat.digitChar (t.Minute.toNat % 10), ':',
          Nat.digitChar (t.Second.toNat / 10), Nat.digitChar (t.Second.toNat % 10)]⟩ ∧
      (1 ≤ t.Day ∧ t.Day ≤ 31) ∧ (1 ≤ t.Month ∧ t.Month ≤ 12) ∧
      (0 ≤ t.Hour ∧ t.Hour ≤ 23) ∧ (0 ≤ t.Minute ∧ t.Minute ≤ 59) ∧
      (0 ≤ t.Second ∧ t.Second ≤ 59) ∧
      t.Day ≤ Calendar.daysIn t.Year t.Month ∧
      t.sec + t.offset =
        86400 * Calendar.dayNumber t.Year t.Month t.Day
          + 3600 * t.Hour + 60 * t.Minute + t.Second := by
  have hz : t.IsZero = false := by
    unfold Time.IsZero
    rcases hnz with h0 | h0 <;> simp [h0]
  obtain ⟨hnum, hm1, hm2, hd1, hdin⟩ := civil_spec (t.abs / 86400)
  obtain ⟨_, _, _, hd2⟩ := civil_month_day (t.abs / 86400)
  have hH : 0 ≤ t.Hour ∧ t.Hour ≤ 23 := by unfold Time.Hour; omega
  have hM : 0 ≤ t.Minute ∧ t.Minute ≤ 59 := by unfold Time.Minute; omega
  have hS : 0 ≤ t.Second ∧ t.Second ≤ 59 := by unfold Time.Second; omega
  have hfmt : t.Format =
      ⟨[Nat.digitChar (t.Day.toNat / 10), Nat.digitChar (t.Day.toNat % 10), '/',
        Nat.digitChar (t.Month.toNat / 10), Nat.digitChar (t.Month.toNat % 10), '/',
        Nat.digitChar (t.Year.toNat / 1000), Nat.digitChar (t.Year.toNat / 100 % 10),
        Nat.digitChar (t.Year.toNat / 10 % 10), Nat.digitChar (t.Year.toNat % 10), ' ',
        Nat.digitChar (t.Hour.toNat / 10), Nat.digitChar (t.Hour.toNat % 10), ':',
        Nat.digitChar (t.Minute.toNat / 10), Nat.digitChar (t.Minute.toNat % 10), ':',
        Nat.digitChar (t.Second.toNat / 10), Nat.digitChar (t.Second.toNat % 10)]⟩ := by
    unfold Time.Format
    rw [(appendInt_fixed t.Day (by unfold Time.Day; omega)).1 (by unfold Time.Day; omega),
      (appendInt_fixed t.Month (by unfold Time.Month; omega)).1 (by unfold Time.Month; omega),
      (appendInt_fixed t.Year hy0).2 (by omega),
      (appendInt_fixed t.Hour hH.1).1 (by omega),
      (appendInt_fixed t.Minute hM.1).1 (by omega),
      (appendInt_fixed t.Second hS.1).1 (by omega)]
    rfl
  have hsec : t.sec + t.offset =
      86400 * Calendar.dayNumber t.Year t.Month t.Day
        + 3600 * t.Hour + 60 * t.Minute + t.Second := by
    unfold Time.Year Time.Month Time.Day
    rw [hnum]
    unfold Time.Hour Time.Minute Time.Second Time.abs
    omega
  refine ⟨_, _, _, toTeams_cons p n rest h, rfl, ?_, ?_, ?_, hfmt, ⟨hd1, hd2⟩, ⟨hm1, hm2⟩,
    hH, hM, hS, hdin, hsec⟩
  · intro hc
    simp [hc, hz]
  · intro hu
    simp [hu, hz]
  · rw [hfmt]
    rfl

/-- C15, on a sample: the creation time of the sample payload, 2019-01-25 18:34:00
UTC, held at the offset +05:30, where it is 00:04:00 of the next day. -/
theorem toTeams_time_layout_witness :
    ∃ card logged section_,
      toTeams { samplePayload with RunCreatedAt := ⟨63684038040, 0, 19800⟩ }
        = some (card, logged) ∧
      card.Sections = [section_] ∧
      ⟨"Run Created At", "26/01/2019 00:04:00"⟩ ∈ section_.Facts := by
  obtain ⟨card, logged, s, h1, h2, h3, _⟩ :=
    toTeams_time_layout { samplePayload with RunCreatedAt := ⟨63684038040, 0, 19800⟩ }
      ⟨"Run done", "run:completed", "applied", ⟨63684038224, 0, 0⟩, "bob"⟩ []
      ⟨63684038040, 0, 19800⟩ rfl (Or.inl (by decide)) (by decide) (by decide)
  have e : (Time.mk 63684038040 0 19800).Format = "26/01/2019 00:04:00" := by decide
  exact ⟨card, logged, s, h1, h2, e ▸ h3 rfl⟩

/-- C16. For a payload with at least one notification, the result of `toTeams` (the card
and the logged line) is the same after any change of the entries after the first, of
the run status of the first entry, of the workspace id and of the notification
configuration id. -/
theorem toTeams_ignores (p : TFENotificationPayload) (n : TFENotification)
    (rest : List TFENotification) (h : p.Notifications = n :: rest)
    (rest2 : List TFENotification) (runStatus workspaceID configurationID : String) :
    toTeams { p with
        Notifications := { n with RunStatus := runStatus } :: rest2
        WorkspaceID := workspaceID
        NotificationConfigurationID := configurationID } = toTeams p := by
  rw [toTeams_cons p n rest h,
    toTeams_cons { p with
        Notifications := { n with RunStatus := runStatus } :: rest2
        WorkspaceID := workspaceID
        NotificationConfigurationID := configurationID }
      { n with RunStatus := runStatus } rest2 rfl]

/-- C16, on the sample payload: a second entry added, the status, the workspace id and
the configuration id changed. -/
theorem toTeams_ignores_witness :
    toTeams { samplePayload with
        Notifications := [
          ⟨"Run done", "run:completed", "errored", ⟨63684038224, 0, 0⟩, "bob"⟩,
          ⟨"Another", "run:errored", "errored", ⟨0, 0, 0⟩, "carol"⟩]
        WorkspaceID := "ws-2"
        NotificationConfigurationID := "nc-2" } = toTeams samplePayload :=
  toTeams_ignores samplePayload
    ⟨"Run done", "run:completed", "applied", ⟨63684038224, 0, 0⟩, "bob"⟩ [] rfl
    [⟨"Another", "run:errored", "errored", ⟨0, 0, 0⟩, "carol"⟩] "errored" "ws-2" "nc-2"

/-- C17. On every call that has a first notification `toTeams` logs the line
`unsupported trigger:` with the trigger of that notification, whatever the trigger is:
also when the trigger is one of the six keys of the colour table and the card gets its
colour. -/
theorem toTeams_logs_trigger (p : TFENotificationPayload) (n : TFENotification)
    (rest : List TFENotification) (h : p.Notifications = n :: rest) :
    ∃ card, toTeams p = some (card, [.unsupportedTrigger n.Trigger]) ∧
      ∀ colour, (n.Trigger, colour) ∈ triggerToColour → card.ThemeColor = colour := by
  refine ⟨_, toTeams_cons p n rest h, ?_⟩
  intro colour hc
  simp only [triggerToColour, List.mem_cons, List.mem_singleton, Prod.mk.injEq,
    List.not_mem_nil, or_false] at hc
  rcases hc with ⟨ht, rfl⟩ | ⟨ht, rfl⟩ | ⟨ht, rfl⟩ | ⟨ht, rfl⟩ | ⟨ht, rfl⟩ | ⟨ht, rfl⟩ <;>
    simp only [ht] <;> decide

/-- C17, on the sample payload: the trigger `run:completed` is in the table. -/
theorem toTeams_logs_trigger_witness :
    ∃ card, toTeams samplePayload = some (card, [.unsupportedTrigger "run:completed"]) ∧
      card.ThemeColor = "#a0d911" := by
  obtain ⟨card, h1, h2⟩ :=
    toTeams_logs_trigger samplePayload
      ⟨"Run done", "run:completed", "applied", ⟨63684038224, 0, 0⟩, "bob"⟩ [] rfl
  exact ⟨card, h1, h2 "#a0d911" (by decide)⟩

/-! ## The handler: delivery, configuration, missing notifications, trimming -/

/-- C13, as amended. When `TEAMS_WEBHOOK_URL` is empty or unset, or is a value on which
`url.Parse` reports an error, `F` exits fatally on every request, before the gate is
evaluated and without writing a response: the outcome is one log line and the exit, the
same for every request. -/
theorem F_fatal_unconfigured (w : World) (r : Request)
    (h : w.Getenv "TEAMS_WEBHOOK_URL" = "" ∨
      ∃ e, w.urlParse (w.Getenv "TEAMS_WEBHOOK_URL") = .error e) :
    (F w r).term = .fatal ∧ (F w r).noResponse ∧ (F w r).status = none ∧
      (F w r).body = [] ∧ (∃ line, (F w r).trace = [.log line]) ∧
      ∀ r2, F w r2 = F w r := by
  have key : ∃ line, ∀ r2, F w r2 = ⟨[.log line], .fatal⟩ := by
    by_cases h1 : w.Getenv "TEAMS_WEBHOOK_URL" = ""
    · exact ⟨.webhookURLNotSet, fun r2 => by simp [F, h1]⟩
    · rcases h with h | ⟨e, he⟩
      · exact absurd h h1
      · exact ⟨.err e, fun r2 => by simp [F, h1, he]⟩
  obtain ⟨line, hl⟩ := key
  refine ⟨by rw [hl], ?_, by rw [hl]; rfl, by rw [hl]; rfl, ⟨line, by rw [hl]⟩, ?_⟩
  · rw [hl]
    intro x hx
    simp only [List.mem_singleton] at hx
    subst hx
    simp
  · intro r2
    rw [hl, hl]

/-- C13 as amended, on two samples: a GET request with the webhook URL unset, and with
the webhook URL `%zz`, which `url.Parse` rejects; neither gets a 400. -/
theorem F_fatal_unconfigured_witness :
    ((F ((sampleWorld "s3cret" 200).setenv "TEAMS_WEBHOOK_URL" "")
        (Request.ofHeaders "GET" [] [])).term = .fatal ∧
      (F ((sampleWorld "s3cret" 200).setenv "TEAMS_WEBHOOK_URL" "")
        (Request.ofHeaders "GET" [] [])).status = none) ∧
    ((F (urlWorld "%zz") (Request.ofHeaders "GET" [] [])).term = .fatal ∧
      (F (urlWorld "%zz") (Request.ofHeaders "GET" [] [])).status = none) := by
  obtain ⟨h1, _, h3, _⟩ :=
    F_fatal_unconfigured ((sampleWorld "s3cret" 200).setenv "TEAMS_WEBHOOK_URL" "")
      (Request.ofHeaders "GET" [] []) (Or.inl rfl)
  obtain ⟨k1, _, k3, _⟩ :=
    F_fatal_unconfigured (urlWorld "%zz") (Request.ofHeaders "GET" [] [])
      (Or.inr ⟨_, rfl⟩)
  exact ⟨⟨h1, h3⟩, ⟨k1, k3⟩⟩

/-- C13 fails as stated: `not a url` is no syntactically valid URL (it has spaces, no
scheme and no host), but `url.Parse` reports no error on it; with that value in
`TEAMS_WEBHOOK_URL` the handler passes lines 157-164, evaluates the gate and answers a
GET with 400 instead of exiting fatally. -/
theorem F_reaches_gate_on_malformed_url :
    (urlWorld "not a url").Getenv "TEAMS_WEBHOOK_URL" = "not a url" ∧
    F (urlWorld "not a url") (Request.ofHeaders "GET" [] [])
      = ⟨[.log (.invalidMethodContentType "GET" ""), .writeHeader 400,
          .write (bytesOf "invalid request")], .returned⟩ ∧
    (F (urlWorld "not a url") (Request.ofHeaders "GET" [] [])).term ≠ .fatal ∧
    (F (urlWorld "not a url") (Request.ofHeaders "GET" [] [])).status = some 400 := by
  decide

/-- C18. `toTeams` returns a card exactly on the payloads with a non-empty notifications
list, and on an empty list the index of the first entry is out of range; `F` guards the
call by the version only, so a request that passes the gate and the signature check and
whose body decodes to version 1 with no notifications ends in that panic, after the
call and with no response, instead of a 400. -/
theorem F_panics_without_notifications (w : World) (r : Request) (B : List Nat)
    (p : TFENotificationPayload) (hw : w.configured) (hr : r.postJSON B)
    (hauth : F.authenticate (w.Getenv "TFE_WEBHOOK_TOKEN")
      (r.Header "X-TFE-Notification-Signature") B = none)
    (hp : w.jsonUnmarshal B = .ok p) (hv : p.PayloadVersion = 1)
    (hn : p.Notifications = []) :
    (∀ q : TFENotificationPayload,
      ((∃ card logged, toTeams q = some (card, logged)) ↔ q.Notifications ≠ []) ∧
      (toTeams q = none ↔ q.Notifications = [])) ∧
    F w r = ⟨[.readBody, .unmarshal B, .callToTeams p], .panic⟩ ∧
    (F w r).status = none ∧ (F w r).noResponse := by
  have htot : ∀ q : TFENotificationPayload,
      ((∃ card logged, toTeams q = some (card, logged)) ↔ q.Notifications ≠ []) ∧
      (toTeams q = none ↔ q.Notifications = []) := by
    intro q
    cases hq : q.Notifications with
    | nil =>
      have hnone : toTeams q = none := by rw [toTeams, hq]
      simp [hnone]
    | cons n rest =>
      have hsome := toTeams_cons q n rest hq
      simp [hsome]
  have hF2 : F w r = ⟨[.readBody, .unmarshal B, .callToTeams p], .panic⟩ := by
    rw [F_of_postJSON w r B hw hr, hauth]
    simp [F.deliver, hp, hv, ((htot p).2).mpr hn]
  refine ⟨htot, hF2, by rw [hF2]; rfl, ?_⟩
  rw [hF2]
  intro x hx
  simp only [List.mem_cons, List.mem_singleton, List.not_mem_nil, or_false] at hx
  rcases hx with rfl | rfl | rfl <;> simp

/-- C18, on a sample: the unsigned document `{"payload_version":1}`, which decodes to
version 1 and no notifications. -/
theorem F_panics_without_notifications_witness :
    (F { sampleWorld "" 200 with
          jsonUnmarshal := fun data =>
            if data = bytesOf "\x7b\"payload_version\":1\x7d" then
              .ok { zeroPayload with PayloadVersion := 1 }
            else .error "invalid character" }
        (Request.ofHeaders "POST" [("Content-Type", "application/json")]
          (bytesOf "\x7b\"payload_version\":1\x7d"))).term = .panic :=
  (congrArg Outcome.term
    (F_panics_without_notifications
      { sampleWorld "" 200 with
        jsonUnmarshal := fun data =>
          if data = bytesOf "\x7b\"payload_version\":1\x7d" then
            .ok { zeroPayload with PayloadVersion := 1 }
          else .error "invalid character" }
      (Request.ofHeaders "POST" [("Content-Type", "application/json")]
        (bytesOf "\x7b\"payload_version\":1\x7d"))
      (bytesOf "\x7b\"payload_version\":1\x7d") { zeroPayload with PayloadVersion := 1 }
      ⟨by decide, rfl⟩ ⟨rfl, rfl, rfl⟩ rfl rfl rfl rfl).2.1)

/-- The signature check sees the header only through its trimmed value. -/
theorem authenticate_trim_header (K h1 h2 : String) (B : List Nat)
    (h : strings.TrimSpace h1 = strings.TrimSpace h2) :
    F.authenticate K h1 B = F.authenticate K h2 B := by
  simp only [F.authenticate, h]

/-- The signature check sees a non-empty secret only through its trimmed value. -/
theorem authenticate_trim_secret (K1 K2 header : String) (B : List Nat) (h1 : K1 ≠ "")
    (h2 : K2 ≠ "") (h : strings.TrimSpace K1 = strings.TrimSpace K2) :
    F.authenticate K1 header B = F.authenticate K2 header B := by
  simp only [F.authenticate, h, h1, h2]

/-- The signature header and the secret enter the handler through the signature check
only. -/
theorem F_congr (w w2 : World) (r r2 : Request)
    (hu : w2.Getenv "TEAMS_WEBHOOK_URL" = w.Getenv "TEAMS_WEBHOOK_URL")
    (h1 : w2.urlParse = w.urlParse) (h2 : w2.jsonUnmarshal = w.jsonUnmarshal)
    (h3 : w2.jsonMarshal = w.jsonMarshal) (h4 : w2.httpPost = w.httpPost)
    (h5 : r2.Method = r.Method) (h6 : r2.Header "Content-Type" = r.Header "Content-Type")
    (h7 : r2.Body = r.Body)
    (h : ∀ B, F.authenticate (w2.Getenv "TFE_WEBHOOK_TOKEN")
        (r2.Header "X-TFE-Notification-Signature") B =
      F.authenticate (w.Getenv "TFE_WEBHOOK_TOKEN")
        (r.Header "X-TFE-Notification-Signature") B) :
    F w2 r2 = F w r := by
  unfold F F.deliver
  simp only [hu, h1, h2, h3, h4, h5, h6, h7, h]

/-- C19. The outcome of `F` depends on the signature header only through its trimmed
value, and on a non-empty secret only through its trimmed value: a header value with the
same trimmed value gives the same outcome, a header of white space only is treated as an
absent one, and two non-empty secrets with the same trimmed value give the same outcome
on every request; the empty secret and a secret of white space only differ on every
request that passes the gate with a header present: the first is the fatal exit of
line 183, the second is not and accepts the signature made with the empty key. -/
theorem F_trims_header_and_secret (w : World) (r : Request) :
    (∀ header, strings.TrimSpace header
        = strings.TrimSpace (r.Header "X-TFE-Notification-Signature") →
      F w (r.withHeader "X-TFE-Notification-Signature" header) = F w r) ∧
    (∀ header, strings.TrimSpace header = "" →
      F w (r.withHeader "X-TFE-Notification-Signature" header)
        = F w (r.withHeader "X-TFE-Notification-Signature" "")) ∧
    (∀ K1 K2, K1 ≠ "" → K2 ≠ "" → strings.TrimSpace K1 = strings.TrimSpace K2 →
      F (w.setenv "TFE_WEBHOOK_TOKEN" K1) r = F (w.setenv "TFE_WEBHOOK_TOKEN" K2) r) ∧
    (∀ B K, w.configured → r.postJSON B →
      strings.TrimSpace (r.Header "X-TFE-Notification-Signature") ≠ "" →
      K ≠ "" → strings.TrimSpace K = "" →
      F (w.setenv "TFE_WEBHOOK_TOKEN" "") r = ⟨[.readBody, .log .tokenNotSet], .fatal⟩ ∧
      F (w.setenv "TFE_WEBHOOK_TOKEN" K) r ≠ F (w.setenv "TFE_WEBHOOK_TOKEN" "") r ∧
      (r.Header "X-TFE-Notification-Signature"
          = hex.EncodeToString (hmac.SumSHA512 [] B) →
        F (w.setenv "TFE_WEBHOOK_TOKEN" K) r =
          ⟨.readBody :: (F.deliver w (w.Getenv "TEAMS_WEBHOOK_URL") B).trace,
            (F.deliver w (w.Getenv "TEAMS_WEBHOOK_URL") B).term⟩)) := by
  have hsig : ∀ (q : Request) (header : String),
      (q.withHeader "X-TFE-Notification-Signature" header).Header
        "X-TFE-Notification-Signature" = header := by
    intro q header
    simp [Request.withHeader]
  have hct : ∀ (q : Request) (header : String),
      (q.withHeader "X-TFE-Notification-Signature" header).Header "Content-Type"
        = q.Header "Content-Type" := by
    intro q header
    simp [Request.withHeader]
  have htok : ∀ K, (w.setenv "TFE_WEBHOOK_TOKEN" K).Getenv "TFE_WEBHOOK_TOKEN" = K := by
    intro K
    simp [World.setenv]
  have hurl : ∀ K, (w.setenv "TFE_WEBHOOK_TOKEN" K).Getenv "TEAMS_WEBHOOK_URL"
      = w.Getenv "TEAMS_WEBHOOK_URL" := by
    intro K
    simp [World.setenv]
  refine ⟨?_, ?_, ?_, ?_⟩
  · intro header h
    refine F_congr w w r _ rfl rfl rfl rfl rfl rfl (hct r header) rfl ?_
    intro B
    rw [hsig]
    exact authenticate_trim_header _ _ _ B h
  · intro header h
    refine F_congr w w _ _ rfl rfl rfl rfl rfl rfl ?_ rfl ?_
    · rw [hct, hct]
    · intro B
      rw [hsig, hsig]
      exact authenticate_trim_header _ _ _ B (by rw [h]; rfl)
  · intro K1 K2 h1 h2 h
    refine F_congr _ _ r r ?_ rfl rfl rfl rfl rfl rfl rfl ?_
    · rw [hurl, hurl]
    · intro B
      rw [htok, htok]
      exact authenticate_trim_secret K1 K2 _ B h1 h2 h
  · intro B K hw hr hh hK hKt
    have hcfg : ∀ K2, (w.setenv "TFE_WEBHOOK_TOKEN" K2).configured := by
      intro K2
      obtain ⟨c1, c2⟩ := hw
      exact ⟨by rw [hurl]; exact c1, by rw [hurl]; exact c2⟩
    have hE : F (w.setenv "TFE_WEBHOOK_TOKEN" "") r
        = ⟨[.readBody, .log .tokenNotSet], .fatal⟩ := by
      rw [F_of_postJSON _ r B (hcfg "") hr, htok]
      simp [F.authenticate, hh]
    have hK2 := F_of_postJSON _ r B (hcfg K) hr
    rw [htok, hurl] at hK2
    have hdel : F.deliver (w.setenv "TFE_WEBHOOK_TOKEN" K) (w.Getenv "TEAMS_WEBHOOK_URL") B
        = F.deliver w (w.Getenv "TEAMS_WEBHOOK_URL") B := rfl
    rw [hdel] at hK2
    refine ⟨hE, ?_, ?_⟩
    · rw [hE, hK2]
      obtain ⟨tail, ht⟩ := deliver_trace w (w.Getenv "TEAMS_WEBHOOK_URL") B
      simp only [F.authenticate, hh, hK, ne_eq, not_false_eq_true, if_true, if_false]
      cases hd : hex.DecodeString
          (strings.TrimSpace (r.Header "X-TFE-Notification-Signature")) with
      | error e => simp
      | ok got =>
        by_cases hm : hmac.Equal got
            (hmac.SumSHA512 (bytesOf (strings.TrimSpace K)) B) = true
        · simp [hm, ht]
        · simp [hm]
    · intro hs
      rw [hK2]
      have ha := authenticate_signed K B hK
      rw [hKt, show bytesOf "" = [] from rfl, ← hs] at ha
      rw [ha]

/-- C19, on the sample: the signed sample request under the secret `s3cret` written
with white space around it, with white space around the signature, and under the empty
secret against a secret of one space. -/
theorem F_trims_header_and_secret_witness :
    F ((sampleWorld "s3cret" 200).setenv "TFE_WEBHOOK_TOKEN" "s3cret")
        (sampleRequest sampleSignature)
      = F ((sampleWorld "s3cret" 200).setenv "TFE_WEBHOOK_TOKEN" " s3cret\n")
        (sampleRequest sampleSignature) ∧
    F (sampleWorld "s3cret" 200)
        ((sampleRequest sampleSignature).withHeader "X-TFE-Notification-Signature"
          ("\t" ++ sampleSignature ++ " "))
      = F (sampleWorld "s3cret" 200) (sampleRequest sampleSignature) ∧
    F ((sampleWorld "s3cret" 200).setenv "TFE_WEBHOOK_TOKEN" " ")
        (sampleRequest sampleSignature)
      ≠ F ((sampleWorld "s3cret" 200).setenv "TFE_WEBHOOK_TOKEN" "")
        (sampleRequest sampleSignature) :=
  ⟨(F_trims_header_and_secret (sampleWorld "s3cret" 200)
      (sampleRequest sampleSignature)).2.2.1 "s3cret" " s3cret\n" (by decide) (by decide)
      (by decide),
   (F_trims_header_and_secret (sampleWorld "s3cret" 200)
      (sampleRequest sampleSignature)).1 ("\t" ++ sampleSignature ++ " ") (by decide),
   ((F_trims_header_and_secret (sampleWorld "s3cret" 200)
      (sampleRequest sampleSignature)).2.2.2 (bytesOf sampleDocument) " " ⟨by decide, rfl⟩
      ⟨rfl, rfl, rfl⟩ (by decide) (by decide) (by decide)).2.1⟩

end TfeToTeams
